import Mathlib

/-!
Verification of the `adbw` wireless-ADB setup tool (`src/devtools/adbw.py`).

The script is shallowly embedded: every external effect (spawning the `adb`
bridge tool, reading operator input, printing) is mediated by an explicit
environment of oracles, and a run is modelled as a pure function from the
parsed arguments, the environment and the operator-input stream to a trace of
events (bridge-tool invocations, stdout lines, stderr lines) together with the
process exit code.  Wall-clock time in the connect-handshake loop is modelled
in milliseconds as natural numbers (the script uses seconds as floats:
5.0 s deadline = 5000 ms, 0.5 s sleep = 500 ms, 3 s per-attempt timeout =
3000 ms).
-/

namespace Adbw

/-- Tokeniser for Python `str.split()`: split on runs of whitespace, dropping
empty fields; `cur` holds the characters of the current field, reversed. -/
def wsTokens : List Char → List Char → List String
  | [], [] => []
  | [], cur => [String.mk cur.reverse]
  | c :: cs, cur =>
    if c.isWhitespace then
      match cur with
      | [] => wsTokens cs []
      | _ => String.mk cur.reverse :: wsTokens cs []
    else wsTokens cs (c :: cur)

/-- Python `str.split()` with no separator. -/
def pySplitWs (s : String) : List String :=
  wsTokens s.data []

/-- Split on a separator character, keeping empty fields (Python
`str.split(sep)` semantics). -/
def sepTokens (sep : Char) : List Char → List Char → List String
  | [], cur => [String.mk cur.reverse]
  | c :: cs, cur =>
    if c = sep then String.mk cur.reverse :: sepTokens sep cs []
    else sepTokens sep cs (c :: cur)

/-- Python `s.splitlines()` restricted to `\n` separators; a trailing empty
line is harmless to every consumer in the script. -/
def pySplitLines (s : String) : List String :=
  sepTokens '\n' s.data []

/-- Whether `pat` is a literal prefix of `l`. -/
def isPrefB : List Char → List Char → Bool
  | [], _ => true
  | _ :: _, [] => false
  | a :: as, b :: bs => a = b && isPrefB as bs

/-- Whether `needle` occurs contiguously inside `hay`. -/
def isInfB (needle : List Char) : List Char → Bool
  | [] => isPrefB needle []
  | c :: tl => isPrefB needle (c :: tl) || isInfB needle tl

/-- Python's `needle in hay` substring test. -/
def strHas (hay needle : String) : Bool :=
  isInfB needle.data hay.data

/-- Python `str.lower()` (ASCII letters suffice for the inspected outputs). -/
def pyLower (s : String) : String :=
  String.mk (s.data.map Char.toLower)

/-- Python `sep.join(parts)`. -/
def joinSep (sep : String) : List String → String
  | [] => ""
  | [x] => x
  | x :: xs => x ++ sep ++ joinSep sep xs

/-- Python `str.strip()`: trim whitespace from both ends. -/
def pyStrip (s : String) : String :=
  String.mk (((s.data.dropWhile Char.isWhitespace).reverse.dropWhile
    Char.isWhitespace).reverse)

/-- Python `str.isdigit()` (ASCII digits): nonempty and all digits. -/
def pyIsDigit (s : String) : Bool :=
  s ≠ "" && s.data.all Char.isDigit

/-- Decimal value of a digit string. -/
def digitsToNat (l : List Char) : Nat :=
  l.foldl (fun n c => n * 10 + (c.toNat - '0'.toNat)) 0

/-- Python `int(s)` on a string that passed `isdigit`. -/
def pyToNat (s : String) : Nat :=
  digitsToNat s.data

/-- `ipaddress.IPv4Address` validation of one dotted-quad octet: decimal,
no leading zero (except "0" itself), value at most 255. -/
def validOctet (s : String) : Bool :=
  pyIsDigit s && (s = "0" || (s.data.head?.getD '0' ≠ '0' && pyToNat s ≤ 255))

/-- Python `ipaddress.IPv4Address(s)` succeeding: exactly four valid octets
separated by dots. -/
def isIPv4 (s : String) : Bool :=
  match sepTokens '.' s.data [] with
  | [a, b, c, d] => validOctet a && validOctet b && validOctet c && validOctet d
  | _ => false

/-! ## The bridge-tool oracle model -/

/-- Result of a completed `adb` invocation (`subprocess.CompletedProcess`). -/
structure CmdResult where
  returncode : Int
  stdout : String
  stderr : String
deriving DecidableEq, Repr

/-- Outcome of an `adb` invocation that was given a timeout: it either raises
`subprocess.TimeoutExpired` or completes. -/
inductive RunOutcome where
  | timeout
  | done (r : CmdResult)
deriving DecidableEq, Repr

/-- Oracles describing how the external world answers each bridge call and
each operator prompt in one run. -/
structure Env where
  /-- `shutil.which("adb")` finds the bridge tool. -/
  adbPresent : Bool
  /-- Result of `adb devices` (run with no timeout, so it cannot raise). -/
  devices : CmdResult
  /-- `adb -s serial shell getprop ro.product.model`, 5 s timeout. -/
  getpropModel : String → RunOutcome
  /-- `adb -s serial shell getprop ro.product.brand`, 5 s timeout. -/
  getpropBrand : String → RunOutcome
  /-- `adb -s serial shell ip addr show iface`, 5 s timeout. -/
  ipAddrShow : String → String → RunOutcome
  /-- `adb -s serial shell ip route`, 5 s timeout. -/
  ipRoute : String → RunOutcome
  /-- `adb -s serial tcpip port` (no timeout). -/
  tcpip : String → Int → CmdResult
  /-- Outcome of the i-th `adb connect target` attempt (3 s timeout). -/
  connectAttempts : Nat → RunOutcome
  /-- Wall-clock duration, in ms, of the i-th connect attempt. -/
  connectDur : Nat → Nat
  /-- `adb -s target reverse tcp:dp tcp:hp` (no timeout). -/
  reverseResult : String → Nat → Nat → CmdResult

/-- Events of a run: bridge-tool invocations and console output. -/
inductive Ev where
  | devicesCmd
  | getprop (serial prop : String)
  | ipAddr (serial iface : String)
  | ipRouteCmd (serial : String)
  | tcpipCmd (serial : String) (port : Int)
  | connectCmd (target : String)
  | reverseCmd (target : String) (dp hp : Nat)
  | out (s : String)
  | err (s : String)
deriving DecidableEq, Repr

/-! ## `_get_device_name` -/

/-- Value a `getprop` query contributes: the stripped stdout when the call
completed with exit code 0 and nonblank output, otherwise the default. -/
def propValue (o : RunOutcome) (deflt : String) : String :=
  match o with
  | .timeout => deflt
  | .done r =>
    if r.returncode = 0 ∧ pyStrip r.stdout ≠ "" then pyStrip r.stdout else deflt

/-- `_get_device_name`: two independent best-effort property queries (model
then brand), merged. Returns (trace, name). -/
def getDeviceNameT (env : Env) (serial : String) : List Ev × String :=
  let model := propValue (env.getpropModel serial) "Unknown"
  let brand := propValue (env.getpropBrand serial) ""
  ([.getprop serial "ro.product.model", .getprop serial "ro.product.brand"],
   if brand ≠ "" then brand ++ " " ++ model else model)

/-! ## `_parse_devices` -/

/-- One line of `adb devices` output: it is a device entry iff it has exactly
two whitespace-separated fields and the second is `device`; the result is the
identifier and whether it is a network (colon-containing) identifier. -/
def classifyLine (line : String) : Option (String × Bool) :=
  match pySplitWs line with
  | [ident, status] =>
      if status = "device" then some (ident, strHas ident ":") else none
  | _ => none

/-- Add to a list modelling a Python `set` (dedup, insertion order kept). -/
def setAdd (l : List String) (x : String) : List String :=
  if x ∈ l then l else l ++ [x]

/-- One step of the classification loop of `_parse_devices`. -/
def devStep (acc : List String × List String) (line : String) :
    List String × List String :=
  match classifyLine line with
  | some (ident, true) => (acc.1, setAdd acc.2 ident)
  | some (ident, false) => (acc.1 ++ [ident], acc.2)
  | none => acc

/-- The classification loop of `_parse_devices` over the output lines,
accumulating (usb serial list, wireless target set). -/
def parseDeviceLines (lines : List String) : List String × List String :=
  lines.foldl devStep ([], [])

/-! ## reverse-rule parsing (`main`, validation phase) -/

/-- Split at the first occurrence of a character: the part before it and the
part after it (the whole string and "" when absent). -/
def breakAt (sep : Char) : List Char → List Char × List Char
  | [] => ([], [])
  | c :: cs =>
    if c = sep then ([], cs)
    else
      let (a, b) := breakAt sep cs
      (c :: a, b)

/-- Python `tok.split(":", 1)`: the part before the first colon and the rest. -/
def splitColon1 (s : String) : String × String :=
  let (a, b) := breakAt ':' s.data
  (String.mk a, String.mk b)

/-- Syntactic parse of one reverse-rule token (`port` or
`devicePort:hostPort`), before the range check. -/
def parseRuleSyntax (tok : String) : Except String (Nat × Nat) :=
  if strHas tok ":" then
    let ab := splitColon1 tok
    if pyIsDigit ab.1 && pyIsDigit ab.2 then .ok (pyToNat ab.1, pyToNat ab.2)
    else .error s!"Error: Invalid reverse port \x27{tok}\x27. Must be port or device:host."
  else if pyIsDigit tok then .ok (pyToNat tok, pyToNat tok)
  else .error s!"Error: Invalid reverse port \x27{tok}\x27. Must be 1-65535."

/-- Parse and range-check one stripped reverse-rule token, as in `main`;
errors carry the diagnostic message. -/
def parseRule (tok0 : String) : Except String (Nat × Nat) :=
  match parseRuleSyntax (pyStrip tok0) with
  | .error e => .error e
  | .ok (dp, hp) =>
    if ¬ (1 ≤ dp ∧ dp ≤ 65535) then
      .error s!"Error: Port {dp} out of range. Must be 1-65535."
    else if ¬ (1 ≤ hp ∧ hp ≤ 65535) then
      .error s!"Error: Port {hp} out of range. Must be 1-65535."
    else .ok (dp, hp)

/-- The token loop of the reverse-rule parse: the first invalid token aborts
with its diagnostic and no partial result. -/
def parseRules : List String → Except String (List (Nat × Nat))
  | [] => .ok []
  | t :: ts =>
    match parseRule t with
    | .error e => .error e
    | .ok r =>
      match parseRules ts with
      | .error e => .error e
      | .ok rs => .ok (r :: rs)

/-- Parse a comma-separated reverse-rule specification. -/
def parseReverse (spec : String) : Except String (List (Nat × Nat)) :=
  parseRules (sepTokens ',' spec.data [])

/-- The `if args.reverse:` guard plus parsing: `None` or `""` means no rules. -/
def parseReverseOpt (spec : Option String) : Except String (List (Nat × Nat)) :=
  match spec with
  | none => .ok []
  | some s => if s = "" then .ok [] else parseReverse s

/-! ## `_get_device_ip` -/

/-- Maximal run of digits at the front of a character list, and the rest. -/
def takeDigits : List Char → List Char × List Char
  | [] => ([], [])
  | c :: cs =>
    if c.isDigit then
      let (d, r) := takeDigits cs
      (c :: d, r)
    else ([], c :: cs)

/-- Consume a literal character sequence at the front, or fail. -/
def dropLit : List Char → List Char → Option (List Char)
  | [], cs => some cs
  | _ :: _, [] => none
  | l :: ls, c :: cs => if l = c then dropLit ls cs else none

/-- Match the regex `inet (\d+\.\d+\.\d+\.\d+)/` anchored at the front of the
list, returning the captured group. Maximal-munch on each `\d+` is exact here
because each digit run is followed by a non-digit literal. -/
def matchInetAt (cs : List Char) : Option String := do
  let r0 ← dropLit "inet ".data cs
  let (d1, r1) := takeDigits r0
  if d1 = [] then none else do
  let r1 ← dropLit ['.'] r1
  let (d2, r2) := takeDigits r1
  if d2 = [] then none else do
  let r2 ← dropLit ['.'] r2
  let (d3, r3) := takeDigits r2
  if d3 = [] then none else do
  let r3 ← dropLit ['.'] r3
  let (d4, r4) := takeDigits r3
  if d4 = [] then none else do
  let _ ← dropLit ['/'] r4
  some (String.mk (d1 ++ '.' :: d2 ++ '.' :: d3 ++ '.' :: d4))

/-- `re.search`: try the pattern at each position, leftmost match wins. -/
def searchInet : List Char → Option String
  | [] => none
  | c :: cs =>
    match matchInetAt (c :: cs) with
    | some ip => some ip
    | none => searchInet cs

/-- Line scan of `ip addr show` output: first line whose first regex match
validates as IPv4 wins; a line whose first match fails validation is skipped. -/
def scanInetLines : List String → Option String
  | [] => none
  | l :: ls =>
    match searchInet l.data with
    | some ip => if isIPv4 ip then some ip else scanInetLines ls
    | none => scanInetLines ls

/-- Token scan of one `ip route` line: a `src` token followed by a token that
validates as IPv4; an invalid follower continues the scan. -/
def scanSrcTokens : List String → Option String
  | [] => none
  | tok :: rest =>
    if tok = "src" then
      match rest with
      | next :: _ => if isIPv4 next then some next else scanSrcTokens rest
      | [] => none
    else scanSrcTokens rest

/-- Line scan of `ip route` output. -/
def scanRouteLines : List String → Option String
  | [] => none
  | l :: ls =>
    match scanSrcTokens (pySplitWs l) with
    | some ip => some ip
    | none => scanRouteLines ls

/-- The interface loop of `_get_device_ip`: query each interface in priority
order; a per-interface timeout or a nonzero exit or a match-free output moves
on to the next interface; the first validated address wins. -/
def tryIfacesT (env : Env) (serial : String) : List String → List Ev × Option String
  | [] => ([], none)
  | iface :: rest =>
    match env.ipAddrShow serial iface with
    | .timeout =>
      (Ev.ipAddr serial iface :: (tryIfacesT env serial rest).1,
       (tryIfacesT env serial rest).2)
    | .done res =>
      if res.returncode = 0 then
        match scanInetLines (pySplitLines res.stdout) with
        | some ip => ([Ev.ipAddr serial iface], some ip)
        | none =>
          (Ev.ipAddr serial iface :: (tryIfacesT env serial rest).1,
           (tryIfacesT env serial rest).2)
      else
        (Ev.ipAddr serial iface :: (tryIfacesT env serial rest).1,
         (tryIfacesT env serial rest).2)

/-- The routing-table fallback of `_get_device_ip`. -/
def routeScanT (env : Env) (serial : String) : List Ev × Option String :=
  ([.ipRouteCmd serial],
   match env.ipRoute serial with
   | .timeout => none
   | .done res =>
     if res.returncode = 0 then scanRouteLines (pySplitLines res.stdout)
     else none)

/-- `_get_device_ip`: interface scan, then routing-table fallback, else a
fatal could-not-determine-address error (`none` models `sys.exit(1)`). -/
def getDeviceIpT (env : Env) (serial : String) : List Ev × Option String :=
  let r1 := tryIfacesT env serial ["wlan0", "wlan1", "wifi0"]
  match r1.2 with
  | some ip => (r1.1, some ip)
  | none =>
    let r2 := routeScanT env serial
    match r2.2 with
    | some ip => (r1.1 ++ r2.1, some ip)
    | none =>
      (r1.1 ++ r2.1 ++ [.err "Error: Could not determine device IP address."],
       none)

/-! ## `_connect` -/

/-- Terminal state of the connect-handshake retry loop: whether a success
indicator was seen, the last observed output, the monotonic time (ms) at which
the loop exited, and how many connect attempts were issued. -/
structure ConnectRun where
  ok : Bool
  lastOutput : String
  tEnd : Nat
  attempts : Nat
deriving DecidableEq, Repr

/-- The `last_output` an attempt leaves behind: the stripped combined
stdout+stderr, or the timeout marker. -/
def attemptOutput (o : RunOutcome) : String :=
  match o with
  | .timeout => "connection timed out"
  | .done r => pyStrip (r.stdout ++ r.stderr)

/-- Whether an attempt's output contains a success indicator (a timed-out
attempt skips the check). -/
def attemptMatches (o : RunOutcome) : Bool :=
  match o with
  | .timeout => false
  | .done r =>
    let s := pyStrip (r.stdout ++ r.stderr)
    strHas s "connected to" || strHas s "already connected"

/-- The retry loop of `_connect`: issue attempt `i` (taking `dur i` ms), on a
success indicator return, otherwise exit when the deadline has passed, else
sleep 500 ms and retry. Fuel makes the recursion structural; `connectLoop_some`
shows enough fuel always exists. -/
def connectLoop (att : Nat → RunOutcome) (dur : Nat → Nat) (deadline : Nat) :
    Nat → Nat → Nat → Option ConnectRun
  | 0, _, _ => none
  | fuel + 1, i, now =>
    let t := now + dur i
    if attemptMatches (att i) then some ⟨true, attemptOutput (att i), t, i + 1⟩
    else if deadline ≤ t then some ⟨false, attemptOutput (att i), t, i + 1⟩
    else connectLoop att dur deadline fuel (i + 1) (t + 500)

/-- The terminal state of the `_connect` loop with its fuel instantiated to
12, which `connectLoop12_isSome` proves always suffices (the sleep alone
advances the clock 500 ms per retry against the 5000 ms deadline), so the
fallback value is never used. -/
def connectRunOf (env : Env) : ConnectRun :=
  (connectLoop env.connectAttempts env.connectDur 5000 12 0 0).getD
    ⟨false, "", 0, 0⟩

/-- `_connect ip port` as called on `target = ip:port`: the banner line, one
bridge `connect` invocation per attempt, and on deadline failure the fatal
diagnostic. Returns the trace and whether the handshake succeeded. -/
def connectT (env : Env) (target : String) : List Ev × Bool :=
  let r := connectRunOf env
  (.out s!"Connecting to {target}..." ::
     (List.replicate r.attempts (.connectCmd target) ++
      if r.ok then []
      else [.err s!"Error: Failed to connect to {target}: {r.lastOutput}"]),
   r.ok)

/-! ## Device selection (`_select_device` and the wireless selection in `main`) -/

/-- Resolve display names for a device list, in order (the dict comprehension
in `_select_device` / the name loop in `main`). -/
def resolveNamesT (env : Env) : List String → List Ev × List (String × String)
  | [] => ([], [])
  | d :: ds =>
    ((getDeviceNameT env d).1 ++ (resolveNamesT env ds).1,
     (d, (getDeviceNameT env d).2) :: (resolveNamesT env ds).2)

/-- Dictionary lookup in the resolved-name association list. -/
def lookupName (ns : List (String × String)) (d : String) : String :=
  ((ns.find? (fun p => p.1 = d)).map Prod.snd).getD ""

/-- The numbered selection menu printed before prompting. -/
def menuLines (header : String) (ns : List (String × String))
    (devices : List String) : List Ev :=
  Ev.out header ::
    (devices.enum.map (fun p =>
       Ev.out s!"  {p.1 + 1}. {lookupName ns p.2} ({p.2})")) ++ [Ev.out ""]

/-- The `while True` selection prompt: each operator line is either a valid
1-based index (selection made), invalid (re-prompt), or end-of-input /
interrupt (`none`, or the stream exhausted), which is fatal. Returns the
prompt-phase trace and, on success, the 0-based index and the rest of the
input stream. -/
def promptLoop (n : Nat) (promptStr invalidMsg : String) :
    List (Option String) → List Ev × Option (Nat × List (Option String))
  | [] => ([.out promptStr, .err ""], none)
  | none :: _ => ([.out promptStr, .err ""], none)
  | some choice :: rest =>
    if pyIsDigit choice ∧ 1 ≤ pyToNat choice ∧ pyToNat choice ≤ n then
      ([.out promptStr], some (pyToNat choice - 1, rest))
    else
      (.out promptStr :: .out invalidMsg ::
         (promptLoop n promptStr invalidMsg rest).1,
       (promptLoop n promptStr invalidMsg rest).2)

/-- `_select_device`: resolve all names, auto-select a single candidate,
otherwise print the menu and prompt. `none` models the fatal exit on an
interrupted prompt. -/
def selectDeviceT (env : Env) (devices : List String)
    (stdin : List (Option String)) :
    List Ev × Option (String × String × List (Option String)) :=
  let rn := resolveNamesT env devices
  match devices with
  | [d] => (rn.1, some (d, lookupName rn.2 d, stdin))
  | _ =>
    let menu := menuLines "Multiple devices found:\n" rn.2 devices
    let pl := promptLoop devices.length
        s!"Select device (1-{devices.length}): "
        s!"Invalid selection. Enter a number between 1 and {devices.length}."
        stdin
    (rn.1 ++ menu ++ pl.1,
     match pl.2 with
     | none => none
     | some (idx, rest) =>
       some (devices.getD idx "", lookupName rn.2 (devices.getD idx ""), rest))

/-- Insertion into a `≤`-sorted list of strings. -/
def insertStr (x : String) : List String → List String
  | [] => [x]
  | y :: ys => if x ≤ y then x :: y :: ys else y :: insertStr x ys

/-- Python `sorted` on strings (code-point lexicographic). -/
def sortStrings (l : List String) : List String :=
  l.foldr insertStr []

/-- The wireless-target selection inlined in `main` (no USB devices, some
network devices): a single target is auto-selected and its name resolved;
multiple targets get the name loop, menu and prompt. -/
def selectWirelessT (env : Env) (targets : List String)
    (stdin : List (Option String)) :
    List Ev × Option (String × String × List (Option String)) :=
  match targets with
  | [t] => ((getDeviceNameT env t).1, some (t, (getDeviceNameT env t).2, stdin))
  | _ =>
    let rn := resolveNamesT env targets
    let menu := menuLines "Multiple wireless devices found:\n" rn.2 targets
    let pl := promptLoop targets.length
        s!"Select device (1-{targets.length}): "
        s!"Invalid selection. Enter a number between 1 and {targets.length}."
        stdin
    (rn.1 ++ menu ++ pl.1,
     match pl.2 with
     | none => none
     | some (idx, rest) =>
       some (targets.getD idx "", lookupName rn.2 (targets.getD idx ""), rest))

/-! ## `main` -/

/-- The parsed command line (`argparse` result): the port, reverse and ip
flags. -/
structure Args where
  port : Int
  reverse : Option String
  ip : Option String
deriving DecidableEq, Repr

/-- Python truthiness of an optional string flag. -/
def optTruthy : Option String → Bool
  | none => false
  | some s => s ≠ ""

/-- The `adb devices` call plus `_parse_devices`; `none` models the fatal
exit when the listing command fails. -/
def parseDevicesT (env : Env) : List Ev × Option (List String × List String) :=
  if env.devices.returncode ≠ 0 then
    ([.devicesCmd, .err "Error: Failed to list adb devices."], none)
  else
    ([.devicesCmd], some (parseDeviceLines (pySplitLines env.devices.stdout)))

/-- The forwarding phase of `main`: with rules present, the banner, then per
rule in input order one bridge `reverse` call, with a warning on nonzero exit
and no abort. -/
def applyReverseT (env : Env) (target : String) (rules : List (Nat × Nat)) :
    List Ev :=
  match rules with
  | [] => []
  | _ =>
    let portStrs := rules.map (fun r =>
      if r.1 = r.2 then s!"{r.1}" else s!"{r.1}:{r.2}")
    let joined := joinSep ", " portStrs
    Ev.out s!"Setting up reverse forwarding on ports {joined}" ::
    (rules.map (fun r =>
       Ev.reverseCmd target r.1 r.2 ::
       (if (env.reverseResult target r.1 r.2).returncode ≠ 0 then
          [Ev.err s!"Warning: Failed to reverse port {r.1}."]
        else []))).flatten

/-- Outcome of the discovery/selection phase of `main`: a fatal exit with its
trace, or a resolved target with its provenance (`ip?`/`serial?` are set on
the paths where `main` binds those variables) and the already-connected flag. -/
inductive Disc where
  | fail (t : List Ev)
  | go (t : List Ev) (target : String) (ip? serial? : Option String)
      (name : String) (already : Bool) (stdin : List (Option String))

/-- The discovery branch of `main` (no truthy `--ip`): list devices, then the
USB path (select, resolve address, detect an existing wireless session), else
the wireless-only path, else the fatal no-devices exit. -/
def discoverDevicesT (env : Env) (args : Args) (stdin : List (Option String)) :
    Disc :=
  match (parseDevicesT env).2 with
  | none => .fail (parseDevicesT env).1
  | some (usb, wireless) =>
    match usb with
    | _ :: _ =>
      match (selectDeviceT env usb stdin).2 with
      | none => .fail ((parseDevicesT env).1 ++ (selectDeviceT env usb stdin).1)
      | some (serial, name, stdin1) =>
        match (getDeviceIpT env serial).2 with
        | none =>
          .fail ((parseDevicesT env).1 ++ (selectDeviceT env usb stdin).1 ++
            (getDeviceIpT env serial).1)
        | some ip =>
          .go ((parseDevicesT env).1 ++ (selectDeviceT env usb stdin).1 ++
              (getDeviceIpT env serial).1)
            (ip ++ ":" ++ toString args.port) (some ip) (some serial) name
            (decide ((ip ++ ":" ++ toString args.port) ∈ wireless)) stdin1
    | [] =>
      match wireless with
      | _ :: _ =>
        match (selectWirelessT env (sortStrings wireless) stdin).2 with
        | none =>
          .fail ((parseDevicesT env).1 ++
            (selectWirelessT env (sortStrings wireless) stdin).1)
        | some (target, name, stdin1) =>
          .go ((parseDevicesT env).1 ++
              (selectWirelessT env (sortStrings wireless) stdin).1)
            target none none name true stdin1
      | [] =>
        .fail ((parseDevicesT env).1 ++
          [.err "Error: No devices found. Connect a device and enable USB debugging."])

/-- Discovery dispatch: a truthy `--ip` bypasses discovery entirely. -/
def discoverT (env : Env) (args : Args) (stdin : List (Option String)) : Disc :=
  match args.ip with
  | some ipArg =>
    if ipArg = "" then discoverDevicesT env args stdin
    else .go [] (ipArg ++ ":" ++ toString args.port) (some ipArg) none "" false stdin
  | none => discoverDevicesT env args stdin

/-- The banner printed when the session pre-exists: only on a bare run (no
reverse rules requested). -/
def alreadyMsgT (rules : List (Nat × Nat)) (name target : String) : List Ev :=
  if rules = [] then
    if name ≠ "" then [.out s!"Already connected to {name} at {target}"]
    else [.out s!"Already connected at {target}"]
  else []

/-- The setup banner (printed only when a display name is known). -/
def setupMsgT (name : String) (port : Int) : List Ev :=
  if name ≠ "" then
    [.out s!"Setting up wireless ADB on {name} port {port}"]
  else []

/-- The transport-mode-switch bridge call, skipped when an explicit IP was
given. -/
def tcpipEvT (ipGiven : Bool) (serial : String) (port : Int) : List Ev :=
  if ipGiven then [] else [.tcpipCmd serial port]

/-- The success banner after the handshake. -/
def connMsgT (name target : String) : List Ev :=
  if name ≠ "" then [.out s!"Connected to {name} at {target}"]
  else [.out s!"Connected to {target}"]

/-- The final hint, printed only on the USB-discovery path. -/
def finalMsgT (ipGiven : Bool) : List Ev :=
  if ipGiven then [] else [.out "You can now disconnect the USB cable."]

/-- The post-discovery phase of `main`: the already-connected shortcut or the
mode switch plus connect handshake, then forwarding and the final hint.
Returns the phase trace and the exit code. -/
def postT (env : Env) (args : Args) (rules : List (Nat × Nat)) (target : String)
    (serial? : Option String) (name : String) (already : Bool) :
    List Ev × Nat :=
  if already then
    (alreadyMsgT rules name target ++ applyReverseT env target rules, 0)
  else
    let serial := serial?.getD ""
    let tcpipRes := env.tcpip serial args.port
    let tcpipOut := pyStrip (tcpipRes.stdout ++ tcpipRes.stderr)
    if ¬ optTruthy args.ip ∧
        (tcpipRes.returncode ≠ 0 ∨ strHas (pyLower tcpipOut) "error") then
      (setupMsgT name args.port ++
         tcpipEvT (optTruthy args.ip) serial args.port ++
         [.err s!"Error: Failed to enable TCP/IP mode: {tcpipOut}"], 1)
    else
      let ct := connectT env target
      if ct.2 then
        (setupMsgT name args.port ++
           tcpipEvT (optTruthy args.ip) serial args.port ++ ct.1 ++
           connMsgT name target ++ applyReverseT env target rules ++
           finalMsgT (optTruthy args.ip), 0)
      else
        (setupMsgT name args.port ++
           tcpipEvT (optTruthy args.ip) serial args.port ++ ct.1, 1)

/-- `main` after the validation phase: discovery/selection, then the
post-discovery phase. -/
def mainRun (env : Env) (args : Args) (stdin : List (Option String))
    (rules : List (Nat × Nat)) : List Ev × Nat :=
  match discoverT env args stdin with
  | .fail t => (t, 1)
  | .go t target _ip? serial? name already _stdin1 =>
    (t ++ (postT env args rules target serial? name already).1,
     (postT env args rules target serial? name already).2)

/-- `main`: flag validation (port range, reverse-rule syntax, bridge-tool
presence, `--ip` syntax) before any bridge call, then the run. Returns the
event trace and the exit code. -/
def mainModel (env : Env) (args : Args) (stdin : List (Option String)) :
    List Ev × Nat :=
  if ¬ (1 ≤ args.port ∧ args.port ≤ 65535) then
    ([.err s!"Error: Port must be between 1 and 65535, got {args.port}."], 1)
  else
    match parseReverseOpt args.reverse with
    | .error msg => ([.err msg], 1)
    | .ok rules =>
      if ¬ env.adbPresent then
        ([.err "Error: adb not found. Install Android SDK platform-tools."], 1)
      else
        match args.ip with
        | some ipArg =>
          if ipArg ≠ "" ∧ ¬ isIPv4 ipArg then
            ([.err s!"Error: Invalid IP address \x27{ipArg}\x27."], 1)
          else mainRun env args stdin rules
        | none => mainRun env args stdin rules

/-! ## Observations on traces -/

/-- Whether an event is a bridge-tool invocation (as opposed to console
output). -/
def isBridgeEv : Ev → Bool
  | .out _ => false
  | .err _ => false
  | _ => true

/-- The pipeline stage of a bridge event: discovery 0, name resolution 1,
address resolution 2, mode switch 3, connect handshake 4, reverse
forwarding 5. Console output has no stage. -/
def evRank? : Ev → Option Nat
  | .devicesCmd => some 0
  | .getprop _ _ => some 1
  | .ipAddr _ _ => some 2
  | .ipRouteCmd _ => some 2
  | .tcpipCmd _ _ => some 3
  | .connectCmd _ => some 4
  | .reverseCmd _ _ _ => some 5
  | .out _ => none
  | .err _ => none

/-- Stage ordering between two events: whenever both are bridge events, the
first one's stage is no later than the second one's. -/
def rankLe (e1 e2 : Ev) : Prop :=
  ∀ r1 r2, evRank? e1 = some r1 → evRank? e2 = some r2 → r1 ≤ r2

/-- All bridge events of a trace are at stage at most `k`. -/
def ranksBelow (t : List Ev) (k : Nat) : Prop :=
  ∀ e ∈ t, ∀ r, evRank? e = some r → r ≤ k

/-- All bridge events of a trace are at stage at least `k`. -/
def ranksAbove (t : List Ev) (k : Nat) : Prop :=
  ∀ e ∈ t, ∀ r, evRank? e = some r → k ≤ r

/-- All bridge events of a trace are at stage exactly `k`. -/
def ranksIn (t : List Ev) (k : Nat) : Prop :=
  ∀ e ∈ t, evRank? e = none ∨ evRank? e = some k

/-- The trace accumulated by the discovery phase, whichever way it ended. -/
def Disc.trace : Disc → List Ev
  | .fail t => t
  | .go t _ _ _ _ _ _ => t

/-- The reverse-forward installation recorded by an event, if any. -/
def revRuleOf : Ev → Option (Nat × Nat)
  | .reverseCmd _ dp hp => some (dp, hp)
  | _ => none

/-- Whether an stdout event announces an already-established connection. -/
def isAlreadyConnectedMsg : Ev → Bool
  | .out s => strHas s "Already connected"
  | _ => false

/-- The USB serial a listing line contributes: a classified identifier with
no colon. -/
def usbOf (line : String) : Option String :=
  match classifyLine line with
  | some (ident, false) => some ident
  | _ => none

/-- A sample environment used to instantiate theorems at concrete inputs:
one USB device that is also already reachable at `192.168.1.50:5555`, and a
failing reverse-forward bridge. -/
def sampleEnv : Env where
  adbPresent := true
  devices := ⟨0, "SERIAL1\tdevice\n192.168.1.50:5555\tdevice\n", ""⟩
  getpropModel := fun _ => .done ⟨0, "Pixel 7\n", ""⟩
  getpropBrand := fun _ => .done ⟨0, "Google\n", ""⟩
  ipAddrShow := fun _ iface =>
    if iface = "wlan0" then .done ⟨0, "    inet 192.168.1.50/24 brd\n", ""⟩
    else .timeout
  ipRoute := fun _ =>
    .done ⟨0, "default via 192.168.1.1 dev wlan0 src 192.168.1.50\n", ""⟩
  tcpip := fun _ _ => ⟨0, "restarting in TCP mode port: 5555\n", ""⟩
  connectAttempts := fun _ => .done ⟨0, "connected to 192.168.1.50:5555\n", ""⟩
  connectDur := fun _ => 100
  reverseResult := fun _ _ _ => ⟨1, "", "error: closed"⟩

end Adbw

namespace Adbw

/-! # Supporting lemmas -/

theorem classifyLine_isSome (line : String) :
    (classifyLine line).isSome ↔ ∃ ident, pySplitWs line = [ident, "device"] := by
  unfold classifyLine
  rcases hs : pySplitWs line with _ | ⟨a, _ | ⟨st, _ | ⟨c, rest⟩⟩⟩
  · simp
  · simp
  · by_cases hb : st = "device" <;> simp [hb]
  · simp

theorem classifyLine_eq {line ident : String} {b : Bool}
    (h : classifyLine line = some (ident, b)) :
    pySplitWs line = [ident, "device"] ∧ b = strHas ident ":" := by
  unfold classifyLine at h
  rcases hs : pySplitWs line with _ | ⟨a, _ | ⟨st, _ | ⟨c, rest⟩⟩⟩ <;>
    rw [hs] at h <;> simp only [] at h
  · exact absurd h (by simp)
  · exact absurd h (by simp)
  · by_cases hb : st = "device"
    · rw [if_pos hb] at h
      obtain ⟨rfl, rfl⟩ : a = ident ∧ strHas a ":" = b := by
        simpa using h
      exact ⟨by rw [hb], rfl⟩
    · rw [if_neg hb] at h
      exact absurd h (by simp)
  · exact absurd h (by simp)

theorem mem_setAdd (l : List String) (x y : String) :
    y ∈ setAdd l x ↔ y ∈ l ∨ y = x := by
  unfold setAdd
  split
  · rename_i hx
    constructor
    · exact Or.inl
    · rintro (h | rfl)
      · exact h
      · exact hx
  · simp

theorem foldl_devStep_fst (lines : List String) :
    ∀ acc : List String × List String,
      (lines.foldl devStep acc).1 = acc.1 ++ lines.filterMap usbOf := by
  induction lines with
  | nil => intro acc; simp
  | cons l ls ih =>
    intro acc
    rw [List.foldl_cons, ih]
    rcases h : classifyLine l with _ | ⟨ident, b⟩
    · simp [devStep, usbOf, h]
    · cases b <;> simp [devStep, usbOf, h]

theorem foldl_devStep_snd (lines : List String) :
    ∀ (acc : List String × List String) (x : String),
      x ∈ (lines.foldl devStep acc).2 ↔
        x ∈ acc.2 ∨ ∃ l ∈ lines, classifyLine l = some (x, true) := by
  induction lines with
  | nil => simp
  | cons l ls ih =>
    intro acc x
    rw [List.foldl_cons, ih]
    rcases h : classifyLine l with _ | ⟨ident, b⟩
    · simp only [devStep, h, List.exists_mem_cons_iff]
      constructor
      · rintro (hx | hx)
        · exact Or.inl hx
        · exact Or.inr (Or.inr hx)
      · rintro (hx | hx | hx)
        · exact Or.inl hx
        · exact absurd hx (by simp [h])
        · exact Or.inr hx
    · cases b
      · simp only [devStep, h, List.exists_mem_cons_iff]
        constructor
        · rintro (hx | hx)
          · exact Or.inl hx
          · exact Or.inr (Or.inr hx)
        · rintro (hx | hx | hx)
          · exact Or.inl hx
          · exact absurd hx (by simp [h])
          · exact Or.inr hx
      · simp only [devStep, h, mem_setAdd, List.exists_mem_cons_iff]
        constructor
        · rintro ((hx | rfl) | hx)
          · exact Or.inl hx
          · exact Or.inr (Or.inl (by simp [h]))
          · exact Or.inr (Or.inr hx)
        · rintro (hx | hx | hx)
          · exact Or.inl (Or.inl hx)
          · obtain rfl : ident = x := by simpa [h] using hx
            exact Or.inl (Or.inr rfl)
          · exact Or.inr hx

/-! # Claim theorems -/

/-- C4: a device-listing line is classified as a device entry iff it has
exactly two whitespace-separated fields and the second equals "device"; a
classified identifier goes to the network set exactly when it contains a
colon, and otherwise is appended, in line order, to the USB list. -/
theorem C4_device_line_classification :
    (∀ line : String, (classifyLine line).isSome ↔
        ∃ ident, pySplitWs line = [ident, "device"]) ∧
    (∀ (line ident : String) (b : Bool), classifyLine line = some (ident, b) →
        pySplitWs line = [ident, "device"] ∧ b = strHas ident ":") ∧
    (∀ lines : List String, (parseDeviceLines lines).1 = lines.filterMap usbOf) ∧
    (∀ (lines : List String) (x : String),
        x ∈ (parseDeviceLines lines).2 ↔
          ∃ l ∈ lines, classifyLine l = some (x, true)) := by
  refine ⟨classifyLine_isSome, fun _ _ _ h => classifyLine_eq h, fun lines => ?_, fun lines x => ?_⟩
  · rw [parseDeviceLines, foldl_devStep_fst]
    rfl
  · rw [parseDeviceLines, foldl_devStep_snd]
    simp

/-- Witness for C4 at concrete inputs: a ready USB line, a ready network
line, a non-ready line, and a malformed line. -/
theorem C4_device_line_classification_witness :
    classifyLine "SERIAL1\tdevice" = some ("SERIAL1", false) ∧
    pySplitWs "SERIAL1\tdevice" = ["SERIAL1", "device"] ∧
    (false : Bool) = strHas "SERIAL1" ":" ∧
    parseDeviceLines
        ["List of devices attached", "SERIAL1\tdevice", "10.0.0.9:5555\tdevice",
         "SERIAL2\tunauthorized", ""] =
      (["SERIAL1"], ["10.0.0.9:5555"]) := by
  refine ⟨by decide, ?_, by decide, by decide⟩
  exact (C4_device_line_classification.2.1 "SERIAL1\tdevice" "SERIAL1" false (by decide)).1

theorem parseRule_ok {t : String} {r : Nat × Nat} (h : parseRule t = .ok r) :
    1 ≤ r.1 ∧ r.1 ≤ 65535 ∧ 1 ≤ r.2 ∧ r.2 ≤ 65535 := by
  unfold parseRule at h
  split at h
  · exact absurd h (by simp)
  · split at h
    · exact absurd h (by simp)
    · split at h
      · exact absurd h (by simp)
      · rename_i dp hp heq h1 h2
        obtain rfl : (dp, hp) = r := by simpa using h
        rw [not_not] at h1 h2
        exact ⟨h1.1, h1.2, h2.1, h2.2⟩

theorem forall₂_mem_right {α β : Type} {R : α → β → Prop} :
    ∀ {l1 : List α} {l2 : List β}, List.Forall₂ R l1 l2 →
      ∀ b ∈ l2, ∃ a ∈ l1, R a b := by
  intro l1 l2 h
  induction h with
  | nil => simp
  | cons hr _ ih =>
    intro b hb
    rcases List.mem_cons.mp hb with rfl | hb
    · exact ⟨_, List.mem_cons_self _ _, hr⟩
    · obtain ⟨a, ha, hab⟩ := ih b hb
      exact ⟨a, List.mem_cons_of_mem _ ha, hab⟩

theorem parseRules_ok : ∀ {ts : List String} {l : List (Nat × Nat)},
    parseRules ts = .ok l →
      List.Forall₂ (fun t r => parseRule t = .ok r) ts l := by
  intro ts
  induction ts with
  | nil =>
    intro l h
    obtain rfl : ([] : List (Nat × Nat)) = l := by simpa [parseRules] using h
    exact .nil
  | cons t ts ih =>
    intro l h
    unfold parseRules at h
    rcases h1 : parseRule t with e | r <;> rw [h1] at h
    · exact absurd h (by simp)
    · rcases h2 : parseRules ts with e | rs <;> rw [h2] at h
      · exact absurd h (by simp)
      · obtain rfl : r :: rs = l := by simpa using h
        exact .cons h1 (ih h2)

/-- C3: reverse-rule parsing yields the full list of range-validated pairs —
one pair per comma-separated token, in order, each component in [1,65535] —
or fails, in which case the run exits 1 having issued no bridge command. -/
theorem C3_reverse_rule_validation :
    (∀ (s : String) (l : List (Nat × Nat)), parseReverse s = .ok l →
        List.Forall₂ (fun t r => parseRule t = .ok r)
          (sepTokens ',' s.data []) l ∧
        l.length = (sepTokens ',' s.data []).length ∧
        ∀ r ∈ l, 1 ≤ r.1 ∧ r.1 ≤ 65535 ∧ 1 ≤ r.2 ∧ r.2 ≤ 65535) ∧
    (∀ (env : Env) (args : Args) (stdin : List (Option String)) (msg : String),
        parseReverseOpt args.reverse = .error msg →
        (mainModel env args stdin).2 = 1 ∧
        ∀ e ∈ (mainModel env args stdin).1, isBridgeEv e = false) := by
  constructor
  · intro s l h
    have hf := parseRules_ok (by simpa [parseReverse] using h)
    refine ⟨hf, hf.length_eq.symm, fun r hr => ?_⟩
    obtain ⟨t, _, ht⟩ := forall₂_mem_right hf r hr
    exact parseRule_ok ht
  · intro env args stdin msg h
    unfold mainModel
    by_cases hp : 1 ≤ args.port ∧ args.port ≤ 65535
    · rw [if_neg (by simpa using hp), h]
      exact ⟨rfl, by simp [isBridgeEv]⟩
    · rw [if_pos (by simpa using hp)]
      exact ⟨rfl, by simp [isBridgeEv]⟩

/-- Witness for C3 at concrete inputs: a parse success and a parse failure
driving a full run. -/
theorem C3_reverse_rule_validation_witness :
    (∀ r ∈ [(3000, 3000), (8080, 9090)],
        1 ≤ r.1 ∧ r.1 ≤ 65535 ∧ 1 ≤ r.2 ∧ r.2 ≤ 65535) ∧
    (mainModel sampleEnv ⟨5555, some "8080:", none⟩ []).2 = 1 ∧
    ∀ e ∈ (mainModel sampleEnv ⟨5555, some "8080:", none⟩ []).1,
      isBridgeEv e = false := by
  refine ⟨(C3_reverse_rule_validation.1 "3000,8080:9090"
    [(3000, 3000), (8080, 9090)] (by rfl)).2.2, ?_, ?_⟩
  · exact (C3_reverse_rule_validation.2 sampleEnv ⟨5555, some "8080:", none⟩ []
      "Error: Invalid reverse port \x278080:\x27. Must be port or device:host."
      (by rfl)).1
  · exact (C3_reverse_rule_validation.2 sampleEnv ⟨5555, some "8080:", none⟩ []
      "Error: Invalid reverse port \x278080:\x27. Must be port or device:host."
      (by rfl)).2

/-- C9: name resolution always issues both property queries in one call; a
timed-out or failed query contributes its default value ("" for brand,
"Unknown" for model) without affecting the other query or the caller, and the
result is "brand model" when the brand is nonempty, else the model value. -/
theorem C9_device_name :
    (∀ (o : RunOutcome) (d : String),
        (o = .timeout ∨
          ∃ cr, o = .done cr ∧ (cr.returncode ≠ 0 ∨ pyStrip cr.stdout = "")) →
        propValue o d = d) ∧
    ∀ (env : Env) (serial : String),
      (getDeviceNameT env serial).1 =
        [.getprop serial "ro.product.model", .getprop serial "ro.product.brand"] ∧
      (getDeviceNameT env serial).2 =
        (if propValue (env.getpropBrand serial) "" ≠ "" then
          propValue (env.getpropBrand serial) "" ++ " " ++
            propValue (env.getpropModel serial) "Unknown"
        else propValue (env.getpropModel serial) "Unknown") := by
  constructor
  · rintro o d (rfl | ⟨cr, rfl, hf⟩)
    · rfl
    · have : ¬ (cr.returncode = 0 ∧ pyStrip cr.stdout ≠ "") := by tauto
      simp only [propValue, if_neg this]
  · intro env serial
    exact ⟨rfl, rfl⟩

/-- Witness for C9: a failed brand query (nonzero exit) contributes the empty
brand, so a concrete resolution yields the bare model name. -/
theorem C9_device_name_witness :
    propValue (.done ⟨1, "Google\n", ""⟩) "" = "" ∧
    (getDeviceNameT
        { sampleEnv with getpropBrand := fun _ => .done ⟨1, "Google\n", ""⟩ }
        "SERIAL1").2 = "Pixel 7" := by
  constructor
  · exact C9_device_name.1 (.done ⟨1, "Google\n", ""⟩) ""
      (Or.inr ⟨⟨1, "Google\n", ""⟩, rfl, Or.inl (by decide)⟩)
  · rw [(C9_device_name.2
      { sampleEnv with getpropBrand := fun _ => .done ⟨1, "Google\n", ""⟩ }
      "SERIAL1").2]
    rfl

/-! ## The connect-handshake loop -/

theorem connectLoop_succ (att : Nat → RunOutcome) (dur : Nat → Nat)
    (deadline fuel i now : Nat) :
    connectLoop att dur deadline (fuel + 1) i now =
      if attemptMatches (att i) then
        some ⟨true, attemptOutput (att i), now + dur i, i + 1⟩
      else if deadline ≤ now + dur i then
        some ⟨false, attemptOutput (att i), now + dur i, i + 1⟩
      else connectLoop att dur deadline fuel (i + 1) (now + dur i + 500) := rfl

theorem connectLoop_some (att : Nat → RunOutcome) (dur : Nat → Nat)
    (deadline : Nat) :
    ∀ fuel i now, deadline ≤ now + 500 * fuel →
      (connectLoop att dur deadline (fuel + 1) i now).isSome := by
  intro fuel
  induction fuel with
  | zero =>
    intro i now h
    rw [connectLoop_succ]
    split
    · rfl
    · rw [if_pos (by omega)]
      rfl
  | succ fuel ih =>
    intro i now h
    rw [connectLoop_succ]
    split
    · rfl
    · split
      · rfl
      · exact ih (i + 1) (now + dur i + 500) (by omega)

theorem connectLoop_attempts (att : Nat → RunOutcome) (dur : Nat → Nat)
    (deadline : Nat) :
    ∀ fuel i now r, connectLoop att dur deadline fuel i now = some r →
      i < r.attempts := by
  intro fuel
  induction fuel with
  | zero =>
    intro i now r h
    exact absurd h (by simp [connectLoop])
  | succ fuel ih =>
    intro i now r h
    rw [connectLoop_succ] at h
    split at h
    · obtain rfl : (⟨true, attemptOutput (att i), now + dur i, i + 1⟩ :
        ConnectRun) = r := by simpa using h
      exact Nat.lt_succ_self i
    · split at h
      · obtain rfl : (⟨false, attemptOutput (att i), now + dur i, i + 1⟩ :
          ConnectRun) = r := by simpa using h
        exact Nat.lt_succ_self i
      · exact Nat.lt_of_succ_lt (ih (i + 1) (now + dur i + 500) r h)

theorem connectLoop_spec (att : Nat → RunOutcome) (dur : Nat → Nat)
    (deadline : Nat) (hdur : ∀ i, dur i ≤ 3000) :
    ∀ fuel i now, deadline ≤ now + 500 * fuel → now ≤ deadline + 500 →
      ∃ r, connectLoop att dur deadline (fuel + 1) i now = some r ∧
        i < r.attempts ∧
        r.tEnd ≤ deadline + 3500 ∧
        r.lastOutput = attemptOutput (att (r.attempts - 1)) ∧
        r.ok = attemptMatches (att (r.attempts - 1)) ∧
        (r.ok = false → deadline ≤ r.tEnd) := by
  intro fuel
  induction fuel with
  | zero =>
    intro i now h hn
    rw [connectLoop_succ]
    by_cases hm : attemptMatches (att i)
    · rw [if_pos hm]
      exact ⟨_, rfl, Nat.lt_succ_self i,
        by show now + dur i ≤ deadline + 3500; have := hdur i; omega, by simp,
        by simp [hm], by simp⟩
    · rw [if_neg hm, if_pos (by omega)]
      exact ⟨_, rfl, Nat.lt_succ_self i,
        by show now + dur i ≤ deadline + 3500; have := hdur i; omega, by simp,
        by simp [hm], fun _ => by show deadline ≤ now + dur i; omega⟩
  | succ fuel ih =>
    intro i now h hn
    rw [connectLoop_succ]
    by_cases hm : attemptMatches (att i)
    · rw [if_pos hm]
      exact ⟨_, rfl, Nat.lt_succ_self i,
        by show now + dur i ≤ deadline + 3500; have := hdur i; omega, by simp,
        by simp [hm], by simp⟩
    · rw [if_neg hm]
      by_cases hd : deadline ≤ now + dur i
      · rw [if_pos hd]
        exact ⟨_, rfl, Nat.lt_succ_self i,
          by show now + dur i ≤ deadline + 3500; have := hdur i; omega, by simp,
          by simp [hm], fun _ => by show deadline ≤ now + dur i; omega⟩
      · rw [if_neg hd]
        obtain ⟨r, hr, hi, ht, hl, ho, hf⟩ :=
          ih (i + 1) (now + dur i + 500) (by omega) (by omega)
        exact ⟨r, hr, Nat.lt_of_succ_lt hi, ht, hl, ho, hf⟩

/-- C2 counterexample: with every connect attempt timing out after its full
3-second per-attempt timeout, the retry loop of `_connect` exits only at
6.5 s of wall-clock time — 1.5 s after the 5-second deadline — so the claim
that the loop terminates within 5 seconds is false. -/
theorem C2_counterexample :
    connectLoop (fun _ => .timeout) (fun _ => 3000) 5000 12 0 0 =
      some ⟨false, "connection timed out", 6500, 2⟩ ∧
    ¬ (6500 ≤ 5000) :=
  ⟨by rfl, by omega⟩

/-- C2 amended: for every sequence of attempt outcomes whose durations respect
the 3-second per-attempt timeout, the retry loop terminates — within 8.5
seconds of wall-clock time (the 5 s deadline, re-checked only after an
attempt, plus one 0.5 s sleep and one full 3 s attempt) — and its terminal
state is either success, the final attempt's output containing a success
indicator, or a deadline-exceeded failure that reports the last observed
output. -/
theorem C2_connect_termination (att : Nat → RunOutcome) (dur : Nat → Nat)
    (hdur : ∀ i, dur i ≤ 3000) :
    ∃ r, connectLoop att dur 5000 12 0 0 = some r ∧
      r.tEnd ≤ 8500 ∧
      r.lastOutput = attemptOutput (att (r.attempts - 1)) ∧
      r.ok = attemptMatches (att (r.attempts - 1)) ∧
      (r.ok = false → 5000 ≤ r.tEnd) := by
  obtain ⟨r, hr, _, ht, hl, ho, hf⟩ :=
    connectLoop_spec att dur 5000 hdur 11 0 0 (by omega) (by omega)
  exact ⟨r, hr, ht, hl, ho, hf⟩

/-- Witness for C2 (amended): the all-timeouts run instantiates the
termination theorem. -/
theorem C2_connect_termination_witness :
    ∃ r, connectLoop (fun _ => .timeout) (fun _ => 3000) 5000 12 0 0 =
        some r ∧
      r.tEnd ≤ 8500 ∧
      r.lastOutput = attemptOutput ((fun _ => RunOutcome.timeout) (r.attempts - 1)) ∧
      r.ok = attemptMatches ((fun _ => RunOutcome.timeout) (r.attempts - 1)) ∧
      (r.ok = false → 5000 ≤ r.tEnd) :=
  C2_connect_termination (fun _ => .timeout) (fun _ => 3000)
    (fun _ => Nat.le_refl 3000)

/-- C10: the deadline is evaluated only after an attempt completes, so the
loop always issues at least one connect attempt before it can fail; and
whenever the attempt it is about to issue ends at or past the deadline, that
attempt's outcome alone decides success or failure, reporting that attempt's
output. -/
theorem C10_first_attempt_decides (att : Nat → RunOutcome) (dur : Nat → Nat) :
    (∃ r, connectLoop att dur 5000 12 0 0 = some r ∧ 1 ≤ r.attempts) ∧
    (∀ deadline fuel i now, deadline ≤ now + dur i →
        connectLoop att dur deadline (fuel + 1) i now =
          some ⟨attemptMatches (att i), attemptOutput (att i),
                now + dur i, i + 1⟩) := by
  constructor
  · have hs := connectLoop_some att dur 5000 11 0 0 (by omega)
    rcases hr : connectLoop att dur 5000 12 0 0 with _ | r
    · rw [hr] at hs
      exact absurd hs (by simp)
    · exact ⟨r, rfl, connectLoop_attempts att dur 5000 12 0 0 r hr⟩
  · intro deadline fuel i now hd
    rw [connectLoop_succ]
    by_cases hm : attemptMatches (att i)
    · rw [if_pos hm, hm]
    · rw [if_neg hm, if_pos hd, Bool.not_eq_true] at *
      rw [hm]

/-- Witness for C10: a first attempt lasting past the whole deadline (2 s
attempt against a 1 s deadline) is still issued and decides the outcome. -/
theorem C10_first_attempt_decides_witness :
    connectLoop (fun _ => .done ⟨1, "failed to connect\n", ""⟩)
        (fun _ => 2000) 1000 12 0 0 =
      some ⟨attemptMatches ((fun _ => RunOutcome.done ⟨1, "failed to connect\n", ""⟩) 0),
            attemptOutput ((fun _ => RunOutcome.done ⟨1, "failed to connect\n", ""⟩) 0),
            0 + 2000, 0 + 1⟩ :=
  (C10_first_attempt_decides (fun _ => .done ⟨1, "failed to connect\n", ""⟩)
    (fun _ => 2000)).2 1000 11 0 0 (by omega)

/-! ## Address resolution -/

theorem scanInetLines_valid :
    ∀ {lines : List String} {ip : String}, scanInetLines lines = some ip →
      isIPv4 ip = true := by
  intro lines
  induction lines with
  | nil => intro ip h; exact absurd h (by simp [scanInetLines])
  | cons l ls ih =>
    intro ip h
    unfold scanInetLines at h
    split at h
    · rename_i ip' hs
      split at h
      · rename_i hv
        obtain rfl : ip' = ip := by simpa using h
        exact hv
      · exact ih h
    · exact ih h

theorem scanSrcTokens_valid :
    ∀ {toks : List String} {ip : String}, scanSrcTokens toks = some ip →
      isIPv4 ip = true := by
  intro toks
  induction toks with
  | nil => intro ip h; exact absurd h (by simp [scanSrcTokens])
  | cons tok rest ih =>
    intro ip h
    unfold scanSrcTokens at h
    split at h
    · split at h
      · split at h
        · rename_i hv
          obtain rfl := by simpa using h
          exact hv
        · exact ih h
      · exact absurd h (by simp)
    · exact ih h

theorem tryIfacesT_timeout {env : Env} {serial iface : String}
    (rest : List String) (h : env.ipAddrShow serial iface = .timeout) :
    (tryIfacesT env serial (iface :: rest)).2 =
      (tryIfacesT env serial rest).2 := by
  rcases h2 : tryIfacesT env serial rest with ⟨t, r⟩
  simp [tryIfacesT, h, h2]

theorem tryIfacesT_skip {env : Env} {serial iface : String}
    (rest : List String) {res : CmdResult}
    (h : env.ipAddrShow serial iface = .done res)
    (hn : res.returncode = 0 → scanInetLines (pySplitLines res.stdout) = none) :
    (tryIfacesT env serial (iface :: rest)).2 =
      (tryIfacesT env serial rest).2 := by
  rcases h2 : tryIfacesT env serial rest with ⟨t, r⟩
  by_cases hrc : res.returncode = 0
  · simp [tryIfacesT, h, h2, hrc, hn hrc]
  · simp [tryIfacesT, h, h2, hrc]

theorem tryIfacesT_hit {env : Env} {serial iface : String}
    (rest : List String) {res : CmdResult} {ip : String}
    (h : env.ipAddrShow serial iface = .done res)
    (hrc : res.returncode = 0)
    (hs : scanInetLines (pySplitLines res.stdout) = some ip) :
    (tryIfacesT env serial (iface :: rest)).2 = some ip := by
  simp [tryIfacesT, h, hrc, hs]

/-- C7: address resolution scans the fixed interface priority list first — a
per-interface timeout, a failed query or a match-free output skips to the
next interface, and a first validated `inet` match wins immediately — then
falls back to the routing-table scan for the token after "src"; every
returned address from either scan is validated as IPv4, and when both
strategies exhaust, resolution fails and the run emits the fatal
could-not-determine-address diagnostic. -/
theorem C7_address_resolution :
    (∀ (env : Env) (serial : String),
        (getDeviceIpT env serial).2 =
          ((tryIfacesT env serial ["wlan0", "wlan1", "wifi0"]).2).orElse
            (fun _ => (routeScanT env serial).2)) ∧
    (∀ (env : Env) (serial iface : String) (rest : List String),
        env.ipAddrShow serial iface = .timeout →
        (tryIfacesT env serial (iface :: rest)).2 =
          (tryIfacesT env serial rest).2) ∧
    (∀ (env : Env) (serial iface : String) (rest : List String)
        (res : CmdResult),
        env.ipAddrShow serial iface = .done res →
        (res.returncode = 0 → scanInetLines (pySplitLines res.stdout) = none) →
        (tryIfacesT env serial (iface :: rest)).2 =
          (tryIfacesT env serial rest).2) ∧
    (∀ (env : Env) (serial iface : String) (rest : List String)
        (res : CmdResult) (ip : String),
        env.ipAddrShow serial iface = .done res →
        res.returncode = 0 →
        scanInetLines (pySplitLines res.stdout) = some ip →
        (tryIfacesT env serial (iface :: rest)).2 = some ip) ∧
    (∀ (lines : List String) (ip : String),
        scanInetLines lines = some ip → isIPv4 ip = true) ∧
    (∀ (toks : List String) (ip : String),
        scanSrcTokens toks = some ip → isIPv4 ip = true) ∧
    (∀ (env : Env) (serial : String),
        (tryIfacesT env serial ["wlan0", "wlan1", "wifi0"]).2 = none →
        (routeScanT env serial).2 = none →
        (getDeviceIpT env serial).2 = none ∧
        Ev.err "Error: Could not determine device IP address." ∈
          (getDeviceIpT env serial).1) := by
  refine ⟨?_, fun env serial iface rest h => tryIfacesT_timeout rest h,
    fun env serial iface rest res h hn => tryIfacesT_skip rest h hn,
    fun env serial iface rest res ip h hrc hs => tryIfacesT_hit rest h hrc hs,
    fun lines ip h => scanInetLines_valid h,
    fun toks ip h => scanSrcTokens_valid h, ?_⟩
  · intro env serial
    rcases h1 : tryIfacesT env serial ["wlan0", "wlan1", "wifi0"] with ⟨t1, r1⟩
    rcases h2 : routeScanT env serial with ⟨t2, r2⟩
    rcases r1 with _ | ip
    · rcases r2 with _ | ip2 <;> simp [getDeviceIpT, h1, h2, Option.orElse]
    · simp [getDeviceIpT, h1, Option.orElse]
  · intro env serial h1 h2
    rcases ht1 : tryIfacesT env serial ["wlan0", "wlan1", "wifi0"] with ⟨t1, r1⟩
    rcases ht2 : routeScanT env serial with ⟨t2, r2⟩
    rw [ht1] at h1
    rw [ht2] at h2
    simp only at h1 h2
    subst h1
    subst h2
    simp [getDeviceIpT, ht1, ht2]

/-- Witness for C7: on `sampleEnv` the first interface hits, the later
interfaces time out, and the structural equation computes the address; a
second environment with no matches anywhere fails fatally. -/
theorem C7_address_resolution_witness :
    (getDeviceIpT sampleEnv "SERIAL1").2 = some "192.168.1.50" ∧
    (tryIfacesT sampleEnv "SERIAL1" ["wlan1", "wifi0"]).2 =
      (tryIfacesT sampleEnv "SERIAL1" ["wifi0"]).2 ∧
    isIPv4 "192.168.1.50" = true ∧
    (getDeviceIpT
        { sampleEnv with
            ipAddrShow := fun _ _ => .timeout
            ipRoute := fun _ => .timeout } "SERIAL1").2 = none := by
  refine ⟨?_, ?_, ?_, ?_⟩
  · rw [C7_address_resolution.1 sampleEnv "SERIAL1"]
    rfl
  · exact C7_address_resolution.2.1 sampleEnv "SERIAL1" "wlan1" ["wifi0"] rfl
  · exact C7_address_resolution.2.2.2.2.1
      ["    inet 192.168.1.50/24 brd", ""] "192.168.1.50" (by rfl)
  · exact ((C7_address_resolution.2.2.2.2.2.2
      { sampleEnv with
          ipAddrShow := fun _ _ => .timeout
          ipRoute := fun _ => .timeout } "SERIAL1") (by rfl) (by rfl)).1

/-! ## Stage-ordering infrastructure -/

theorem ranksIn_below {t : List Ev} {k : Nat} (h : ranksIn t k) :
    ranksBelow t k := by
  intro e he r hr
  rcases h e he with hn | hs
  · rw [hn] at hr
    exact absurd hr (by simp)
  · rw [hs] at hr
    obtain rfl : k = r := by simpa using hr
    exact le_refl _

theorem ranksIn_above {t : List Ev} {k : Nat} (h : ranksIn t k) :
    ranksAbove t k := by
  intro e he r hr
  rcases h e he with hn | hs
  · rw [hn] at hr
    exact absurd hr (by simp)
  · rw [hs] at hr
    obtain rfl : k = r := by simpa using hr
    exact le_refl _

theorem ranksBelow_mono {t : List Ev} {k k' : Nat} (h : ranksBelow t k)
    (hk : k ≤ k') : ranksBelow t k' :=
  fun e he r hr => le_trans (h e he r hr) hk

theorem ranksAbove_mono {t : List Ev} {k k' : Nat} (h : ranksAbove t k)
    (hk : k' ≤ k) : ranksAbove t k' :=
  fun e he r hr => le_trans hk (h e he r hr)

theorem ranksBelow_append {t1 t2 : List Ev} {k : Nat}
    (h1 : ranksBelow t1 k) (h2 : ranksBelow t2 k) :
    ranksBelow (t1 ++ t2) k := by
  intro e he r hr
  rcases List.mem_append.mp he with h | h
  · exact h1 e h r hr
  · exact h2 e h r hr

theorem ranksAbove_append {t1 t2 : List Ev} {k : Nat}
    (h1 : ranksAbove t1 k) (h2 : ranksAbove t2 k) :
    ranksAbove (t1 ++ t2) k := by
  intro e he r hr
  rcases List.mem_append.mp he with h | h
  · exact h1 e h r hr
  · exact h2 e h r hr

theorem ranksIn_append {t1 t2 : List Ev} {k : Nat}
    (h1 : ranksIn t1 k) (h2 : ranksIn t2 k) : ranksIn (t1 ++ t2) k := by
  intro e he
  rcases List.mem_append.mp he with h | h
  · exact h1 e h
  · exact h2 e h

theorem ranksIn_pairwise {t : List Ev} {k : Nat} (h : ranksIn t k) :
    t.Pairwise rankLe := by
  apply List.pairwise_of_forall_mem_list
  intro a ha b hb r1 r2 h1 h2
  have hak := ranksIn_below h a ha r1 h1
  have hbk := ranksIn_above h b hb r2 h2
  omega

theorem pairwise_rankLe_append (k : Nat) {l1 l2 : List Ev}
    (h1 : l1.Pairwise rankLe) (h2 : l2.Pairwise rankLe)
    (hb : ranksBelow l1 k) (ha : ranksAbove l2 k) :
    (l1 ++ l2).Pairwise rankLe := by
  rw [List.pairwise_append]
  refine ⟨h1, h2, fun a hma b hmb => ?_⟩
  intro r1 r2 hr1 hr2
  have := hb a hma r1 hr1
  have := ha b hmb r2 hr2
  omega

/-! ## Per-phase stage lemmas -/

theorem getDeviceNameT_ranks (env : Env) (serial : String) :
    ranksIn (getDeviceNameT env serial).1 1 := by
  intro e he
  rcases (by simpa [getDeviceNameT] using he :
    e = Ev.getprop serial "ro.product.model" ∨
    e = Ev.getprop serial "ro.product.brand") with rfl | rfl <;>
    exact Or.inr rfl

theorem resolveNamesT_ranks (env : Env) :
    ∀ ds : List String, ranksIn (resolveNamesT env ds).1 1 := by
  intro ds
  induction ds with
  | nil => intro e he; exact absurd he (by simp [resolveNamesT])
  | cons d ds ih =>
    intro e he
    simp only [resolveNamesT] at he
    rcases List.mem_append.mp he with he | he
    · exact getDeviceNameT_ranks env d e he
    · exact ih e he

theorem menuLines_ranks (header : String) (ns : List (String × String))
    (devices : List String) : ranksIn (menuLines header ns devices) 1 := by
  intro e he
  rw [menuLines] at he
  rcases List.mem_cons.mp he with rfl | he
  · exact Or.inl rfl
  · rcases List.mem_append.mp he with he | he
    · obtain ⟨p, _, rfl⟩ := List.mem_map.mp he
      exact Or.inl rfl
    · obtain rfl : e = Ev.out "" := by simpa using he
      exact Or.inl rfl

theorem promptLoop_ranks (n : Nat) (p m : String) :
    ∀ stdin : List (Option String), ranksIn (promptLoop n p m stdin).1 1 := by
  intro stdin
  induction stdin with
  | nil =>
    intro e he
    rcases (by simpa [promptLoop] using he : e = Ev.out p ∨ e = Ev.err "")
      with rfl | rfl <;> exact Or.inl rfl
  | cons c rest ih =>
    intro e he
    rcases c with _ | choice
    · rcases (by simpa [promptLoop] using he : e = Ev.out p ∨ e = Ev.err "")
        with rfl | rfl <;> exact Or.inl rfl
    · rw [promptLoop] at he
      split at he
      · obtain rfl : e = Ev.out p := by simpa using he
        exact Or.inl rfl
      · rcases List.mem_cons.mp he with rfl | he
        · exact Or.inl rfl
        · rcases List.mem_cons.mp he with rfl | he
          · exact Or.inl rfl
          · exact ih e he

theorem selectDeviceT_ranks (env : Env) (devices : List String)
    (stdin : List (Option String)) :
    ranksIn (selectDeviceT env devices stdin).1 1 := by
  intro e he
  rcases devices with _ | ⟨d, _ | ⟨d2, ds⟩⟩
  · simp only [selectDeviceT] at he
    rcases List.mem_append.mp he with he | he
    · rcases List.mem_append.mp he with he | he
      · exact resolveNamesT_ranks env [] e he
      · exact menuLines_ranks _ _ _ e he
    · exact promptLoop_ranks _ _ _ stdin e he
  · simp only [selectDeviceT] at he
    exact resolveNamesT_ranks env [d] e he
  · simp only [selectDeviceT] at he
    rcases List.mem_append.mp he with he | he
    · rcases List.mem_append.mp he with he | he
      · exact resolveNamesT_ranks env (d :: d2 :: ds) e he
      · exact menuLines_ranks _ _ _ e he
    · exact promptLoop_ranks _ _ _ stdin e he

theorem selectWirelessT_ranks (env : Env) (targets : List String)
    (stdin : List (Option String)) :
    ranksIn (selectWirelessT env targets stdin).1 1 := by
  intro e he
  rcases targets with _ | ⟨d, _ | ⟨d2, ds⟩⟩
  · simp only [selectWirelessT] at he
    rcases List.mem_append.mp he with he | he
    · rcases List.mem_append.mp he with he | he
      · exact resolveNamesT_ranks env [] e he
      · exact menuLines_ranks _ _ _ e he
    · exact promptLoop_ranks _ _ _ stdin e he
  · simp only [selectWirelessT] at he
    exact getDeviceNameT_ranks env d e he
  · simp only [selectWirelessT] at he
    rcases List.mem_append.mp he with he | he
    · rcases List.mem_append.mp he with he | he
      · exact resolveNamesT_ranks env (d :: d2 :: ds) e he
      · exact menuLines_ranks _ _ _ e he
    · exact promptLoop_ranks _ _ _ stdin e he

theorem tryIfacesT_ranks (env : Env) (serial : String) :
    ∀ ifaces : List String, ranksIn (tryIfacesT env serial ifaces).1 2 := by
  intro ifaces
  induction ifaces with
  | nil => intro e he; exact absurd he (by simp [tryIfacesT])
  | cons iface rest ih =>
    intro e he
    rw [tryIfacesT] at he
    split at he
    · rcases List.mem_cons.mp he with rfl | he
      · exact Or.inr rfl
      · exact ih e he
    · split at he
      · split at he
        · obtain rfl : e = Ev.ipAddr serial iface := by simpa using he
          exact Or.inr rfl
        · rcases List.mem_cons.mp he with rfl | he
          · exact Or.inr rfl
          · exact ih e he
      · rcases List.mem_cons.mp he with rfl | he
        · exact Or.inr rfl
        · exact ih e he

theorem routeScanT_ranks (env : Env) (serial : String) :
    ranksIn (routeScanT env serial).1 2 := by
  intro e he
  obtain rfl : e = Ev.ipRouteCmd serial := by simpa [routeScanT] using he
  exact Or.inr rfl

theorem getDeviceIpT_ranks (env : Env) (serial : String) :
    ranksIn (getDeviceIpT env serial).1 2 := by
  intro e he
  rcases h1 : (tryIfacesT env serial ["wlan0", "wlan1", "wifi0"]).2 with _ | ip
  · rcases h2 : (routeScanT env serial).2 with _ | ip2
    · simp only [getDeviceIpT, h1, h2] at he
      rcases List.mem_append.mp he with he | he
      · rcases List.mem_append.mp he with he | he
        · exact tryIfacesT_ranks env serial _ e he
        · exact routeScanT_ranks env serial e he
      · obtain rfl : e = Ev.err "Error: Could not determine device IP address." := by
          simpa using he
        exact Or.inl rfl
    · simp only [getDeviceIpT, h1, h2] at he
      rcases List.mem_append.mp he with he | he
      · exact tryIfacesT_ranks env serial _ e he
      · exact routeScanT_ranks env serial e he
  · simp only [getDeviceIpT, h1] at he
    exact tryIfacesT_ranks env serial _ e he

theorem parseDevicesT_ranks (env : Env) :
    ranksIn (parseDevicesT env).1 0 := by
  rw [parseDevicesT]
  split <;> intro e he
  · rcases (by simpa using he :
      e = Ev.devicesCmd ∨ e = Ev.err "Error: Failed to list adb devices.")
      with rfl | rfl
    · exact Or.inr rfl
    · exact Or.inl rfl
  · obtain rfl : e = Ev.devicesCmd := by simpa using he
    exact Or.inr rfl

theorem connectT_ranks (env : Env) (target : String) :
    ranksIn (connectT env target).1 4 := by
  intro e he
  rw [connectT] at he
  rcases List.mem_cons.mp he with rfl | he
  · exact Or.inl rfl
  · rcases List.mem_append.mp he with he | he
    · obtain rfl := List.eq_of_mem_replicate he
      exact Or.inr rfl
    · split at he
      · exact absurd he (by simp)
      · obtain rfl : e = Ev.err
            s!"Error: Failed to connect to {target}: {(connectRunOf env).lastOutput}" := by
          simpa using he
        exact Or.inl rfl

theorem applyReverseT_ranks (env : Env) (target : String)
    (rules : List (Nat × Nat)) : ranksIn (applyReverseT env target rules) 5 := by
  intro e he
  rcases rules with _ | ⟨r0, rest⟩
  · exact absurd he (by simp [applyReverseT])
  · rw [applyReverseT] at he
    rcases List.mem_cons.mp he with rfl | he
    · exact Or.inl rfl
    · obtain ⟨block, hb, heb⟩ := List.mem_flatten.mp he
      obtain ⟨rule, _, rfl⟩ := List.mem_map.mp hb
      rcases List.mem_cons.mp heb with rfl | heb
      · exact Or.inr rfl
      · split at heb
        · obtain rfl := List.mem_singleton.mp heb
          exact Or.inl rfl
        · exact absurd heb (by simp)
    · simp

/-! ## Whole-run stage ordering -/

theorem outs_ranksIn {l : List Ev} (k : Nat)
    (h : ∀ e ∈ l, evRank? e = none) : ranksIn l k :=
  fun e he => Or.inl (h e he)

theorem err_ranksIn (s : String) (k : Nat) : ranksIn [Ev.err s] k := by
  intro e he
  simp only [List.mem_singleton] at he
  subst he
  exact Or.inl rfl

theorem out_ranksIn (s : String) (k : Nat) : ranksIn [Ev.out s] k := by
  intro e he
  simp only [List.mem_singleton] at he
  subst he
  exact Or.inl rfl

theorem discoverDevicesT_trace (env : Env) (args : Args)
    (stdin : List (Option String)) :
    (discoverDevicesT env args stdin).trace.Pairwise rankLe ∧
    ranksBelow (discoverDevicesT env args stdin).trace 2 := by
  have hpd := parseDevicesT_ranks env
  rw [discoverDevicesT]
  rcases h0 : (parseDevicesT env).2 with _ | ⟨usb, wireless⟩
  · exact ⟨ranksIn_pairwise hpd, ranksBelow_mono (ranksIn_below hpd) (by omega)⟩
  · rcases usb with _ | ⟨u, us⟩
    · rcases wireless with _ | ⟨w, ws⟩
      · dsimp only [Disc.trace]
        refine ⟨?_, ?_⟩
        · exact pairwise_rankLe_append 0 (ranksIn_pairwise hpd)
            (List.pairwise_singleton _ _) (ranksIn_below hpd)
            (ranksIn_above (outs_ranksIn 0
              (by intro e he; simp at he; simp [he, evRank?])))
        · exact ranksBelow_append
            (ranksBelow_mono (ranksIn_below hpd) (by omega))
            (by intro e he; simp at he; simp [he, evRank?])
      · dsimp only
        have hsel := selectWirelessT_ranks env (sortStrings (w :: ws)) stdin
        have hps : ((parseDevicesT env).1 ++
            (selectWirelessT env (sortStrings (w :: ws)) stdin).1).Pairwise
              rankLe :=
          pairwise_rankLe_append 0 (ranksIn_pairwise hpd)
            (ranksIn_pairwise hsel) (ranksIn_below hpd)
            (ranksAbove_mono (ranksIn_above hsel) (by omega))
        have hpsb : ranksBelow ((parseDevicesT env).1 ++
            (selectWirelessT env (sortStrings (w :: ws)) stdin).1) 2 :=
          ranksBelow_append (ranksBelow_mono (ranksIn_below hpd) (by omega))
            (ranksBelow_mono (ranksIn_below hsel) (by omega))
        rcases h1 : (selectWirelessT env (sortStrings (w :: ws)) stdin).2
          with _ | ⟨target, name, stdin1⟩ <;>
          exact ⟨hps, hpsb⟩
    · dsimp only
      have hsel := selectDeviceT_ranks env (u :: us) stdin
      have hps : ((parseDevicesT env).1 ++
          (selectDeviceT env (u :: us) stdin).1).Pairwise rankLe :=
        pairwise_rankLe_append 0 (ranksIn_pairwise hpd)
          (ranksIn_pairwise hsel) (ranksIn_below hpd)
          (ranksAbove_mono (ranksIn_above hsel) (by omega))
      have hpsb : ranksBelow ((parseDevicesT env).1 ++
          (selectDeviceT env (u :: us) stdin).1) 1 :=
        ranksBelow_append (ranksBelow_mono (ranksIn_below hpd) (by omega))
          (ranksIn_below hsel)
      rcases h1 : (selectDeviceT env (u :: us) stdin).2
        with _ | ⟨serial, name, stdin1⟩
      · dsimp only
        exact ⟨hps, ranksBelow_mono hpsb (by omega)⟩
      · dsimp only
        have hip := getDeviceIpT_ranks env serial
        have hall : ((parseDevicesT env).1 ++
            (selectDeviceT env (u :: us) stdin).1 ++
            (getDeviceIpT env serial).1).Pairwise rankLe :=
          pairwise_rankLe_append 1 hps (ranksIn_pairwise hip) hpsb
            (ranksAbove_mono (ranksIn_above hip) (by omega))
        have hallb : ranksBelow ((parseDevicesT env).1 ++
            (selectDeviceT env (u :: us) stdin).1 ++
            (getDeviceIpT env serial).1) 2 :=
          ranksBelow_append (ranksBelow_mono hpsb (by omega))
            (ranksIn_below hip)
        rcases h2 : (getDeviceIpT env serial).2 with _ | ip <;>
          (dsimp only; exact ⟨hall, hallb⟩)

theorem discoverT_trace (env : Env) (args : Args)
    (stdin : List (Option String)) :
    (discoverT env args stdin).trace.Pairwise rankLe ∧
    ranksBelow (discoverT env args stdin).trace 2 := by
  rw [discoverT]
  rcases args.ip with _ | ipArg
  · try dsimp only
    exact discoverDevicesT_trace env args stdin
  · try dsimp only
    by_cases h : ipArg = ""
    · rw [if_pos h]
      exact discoverDevicesT_trace env args stdin
    · rw [if_neg h]
      dsimp only [Disc.trace]
      exact ⟨List.Pairwise.nil, by intro e he; exact absurd he (by simp)⟩

theorem alreadyMsgT_ranks (rules : List (Nat × Nat)) (name target : String)
    (k : Nat) : ranksIn (alreadyMsgT rules name target) k := by
  intro e he
  unfold alreadyMsgT at he
  split at he
  · split at he <;> simp_all [evRank?]
  · simp_all

theorem setupMsgT_ranks (name : String) (port : Int) (k : Nat) :
    ranksIn (setupMsgT name port) k := by
  intro e he
  unfold setupMsgT at he
  split at he <;> simp_all [evRank?]

theorem tcpipEvT_ranks (g : Bool) (serial : String) (port : Int) :
    ranksIn (tcpipEvT g serial port) 3 := by
  intro e he
  unfold tcpipEvT at he
  split at he <;> simp_all [evRank?]

theorem connMsgT_ranks (name target : String) (k : Nat) :
    ranksIn (connMsgT name target) k := by
  intro e he
  unfold connMsgT at he
  split at he <;> simp_all [evRank?]

theorem finalMsgT_ranks (g : Bool) (k : Nat) : ranksIn (finalMsgT g) k := by
  intro e he
  unfold finalMsgT at he
  split at he <;> simp_all [evRank?]

theorem postT_trace (env : Env) (args : Args) (rules : List (Nat × Nat))
    (target : String) (serial? : Option String) (name : String)
    (already : Bool) :
    (postT env args rules target serial? name already).1.Pairwise rankLe ∧
    ranksAbove (postT env args rules target serial? name already).1 3 := by
  have hrev := applyReverseT_ranks env target rules
  rw [postT]
  split
  · -- already connected
    have h1 := alreadyMsgT_ranks rules name target 5
    constructor
    · exact pairwise_rankLe_append 5 (ranksIn_pairwise h1)
        (ranksIn_pairwise hrev) (ranksIn_below h1) (ranksIn_above hrev)
    · exact ranksAbove_append (ranksAbove_mono (ranksIn_above h1) (by omega))
        (ranksAbove_mono (ranksIn_above hrev) (by omega))
  · -- mode switch and connect handshake
    have hsetup := setupMsgT_ranks name args.port 3
    have htc := tcpipEvT_ranks (optTruthy args.ip) (serial?.getD "") args.port
    have hst : ((setupMsgT name args.port) ++
        tcpipEvT (optTruthy args.ip) (serial?.getD "") args.port).Pairwise
          rankLe :=
      pairwise_rankLe_append 3 (ranksIn_pairwise hsetup)
        (ranksIn_pairwise htc) (ranksIn_below hsetup) (ranksIn_above htc)
    have hstIn := ranksIn_append hsetup htc
    dsimp only
    split
    · -- tcpip failure
      constructor
      · exact pairwise_rankLe_append 3 hst (List.pairwise_singleton _ _)
          (ranksIn_below hstIn) (ranksIn_above (err_ranksIn _ 3))
      · exact ranksAbove_append (ranksIn_above hstIn)
          (ranksIn_above (err_ranksIn _ 3))
    · have hct := connectT_ranks env target
      have hp3 : ((setupMsgT name args.port ++
          tcpipEvT (optTruthy args.ip) (serial?.getD "") args.port) ++
          (connectT env target).1).Pairwise rankLe :=
        pairwise_rankLe_append 3 hst (ranksIn_pairwise hct)
          (ranksIn_below hstIn)
          (ranksAbove_mono (ranksIn_above hct) (by omega))
      have hb3 : ranksBelow ((setupMsgT name args.port ++
          tcpipEvT (optTruthy args.ip) (serial?.getD "") args.port) ++
          (connectT env target).1) 4 :=
        ranksBelow_append (ranksBelow_mono (ranksIn_below hstIn) (by omega))
          (ranksIn_below hct)
      have ha3 : ranksAbove ((setupMsgT name args.port ++
          tcpipEvT (optTruthy args.ip) (serial?.getD "") args.port) ++
          (connectT env target).1) 3 :=
        ranksAbove_append (ranksIn_above hstIn)
          (ranksAbove_mono (ranksIn_above hct) (by omega))
      split
      · -- handshake success
        have hconn := connMsgT_ranks name target 4
        have hfin := finalMsgT_ranks (optTruthy args.ip) 5
        have hp4 := pairwise_rankLe_append 4 hp3 (ranksIn_pairwise hconn)
          hb3 (ranksIn_above hconn)
        have hb4 := ranksBelow_append hb3 (ranksIn_below hconn)
        have hp5 := pairwise_rankLe_append 4 hp4 (ranksIn_pairwise hrev)
          hb4 (ranksAbove_mono (ranksIn_above hrev) (by omega))
        have hb5 := ranksBelow_append (ranksBelow_mono hb4 (by omega))
          (ranksIn_below hrev)
        constructor
        · exact pairwise_rankLe_append 5 hp5 (ranksIn_pairwise hfin) hb5
            (ranksIn_above hfin)
        · refine ranksAbove_append (ranksAbove_append (ranksAbove_append ha3
            (ranksAbove_mono (ranksIn_above hconn) (by omega)))
            (ranksAbove_mono (ranksIn_above hrev) (by omega))) ?_
          exact ranksAbove_mono (ranksIn_above hfin) (by omega)
      · -- handshake failure
        exact ⟨hp3, ha3⟩

theorem mainRun_pairwise (env : Env) (args : Args)
    (stdin : List (Option String)) (rules : List (Nat × Nat)) :
    ((mainRun env args stdin rules).1).Pairwise rankLe := by
  obtain ⟨hdp, hdb⟩ := discoverT_trace env args stdin
  rw [mainRun]
  rcases hd : discoverT env args stdin with t |
    ⟨t, target, ip?, serial?, name, already, stdin1⟩
  · dsimp only
    rw [hd] at hdp
    exact hdp
  · dsimp only
    rw [hd] at hdp hdb
    dsimp only [Disc.trace] at hdp hdb
    obtain ⟨hpp, hpa⟩ := postT_trace env args rules target serial? name already
    exact pairwise_rankLe_append 2 hdp hpp hdb
      (ranksAbove_mono hpa (by omega))

theorem sorted_filterMap_of_pairwise :
    ∀ {t : List Ev}, t.Pairwise rankLe →
      List.Sorted (· ≤ ·) (t.filterMap evRank?) := by
  intro t h
  induction h with
  | nil => simp [List.Sorted]
  | cons he ht ih =>
    rename_i e t'
    rw [List.filterMap_cons]
    rcases hv : evRank? e with _ | r
    · exact ih
    · rw [List.sorted_cons]
      refine ⟨fun b hb => ?_, ih⟩
      obtain ⟨e2, he2, hre2⟩ := List.mem_filterMap.mp hb
      exact he e2 he2 r b hv hre2

/-- C5: in every run the bridge-call trace respects the pipeline stages —
device discovery (stage 0) precedes the name queries of selection (1), which
precede address resolution (2), which precedes the transport-mode switch (3),
which precedes the connect handshake (4), and reverse-forward installations
(5) come strictly after all of them: the stage sequence of the issued bridge
calls, in trace order, is sorted. -/
theorem C5_bridge_call_ordering (env : Env) (args : Args)
    (stdin : List (Option String)) :
    ((mainModel env args stdin).1).Pairwise rankLe ∧
    List.Sorted (· ≤ ·)
      (((mainModel env args stdin).1).filterMap evRank?) := by
  have hp : ((mainModel env args stdin).1).Pairwise rankLe := by
    rw [mainModel]
    split
    · exact List.pairwise_singleton _ _
    · rcases hpr : parseReverseOpt args.reverse with msg | rules
      · try dsimp only
        exact List.pairwise_singleton _ _
      · try dsimp only
        split
        · exact List.pairwise_singleton _ _
        · rcases hips : args.ip with _ | ipArg
          · try dsimp only
            exact mainRun_pairwise env args stdin rules
          · try dsimp only
            split
            · exact List.pairwise_singleton _ _
            · exact mainRun_pairwise env args stdin rules
  exact ⟨hp, sorted_filterMap_of_pairwise hp⟩

/-! ## Exit codes and failing traces -/

theorem postT_code (env : Env) (args : Args) (rules : List (Nat × Nat))
    (target : String) (serial? : Option String) (name : String)
    (already : Bool) :
    (postT env args rules target serial? name already).2 = 0 ∨
    ranksBelow (postT env args rules target serial? name already).1 4 := by
  rw [postT]
  split
  · exact Or.inl rfl
  · dsimp only
    split
    · refine Or.inr (ranksBelow_append (ranksBelow_append
        (ranksBelow_mono (ranksIn_below (setupMsgT_ranks name args.port 3))
          (by omega))
        (ranksBelow_mono (ranksIn_below
          (tcpipEvT_ranks (optTruthy args.ip) (serial?.getD "") args.port))
          (by omega)))
        (ranksBelow_mono (ranksIn_below (err_ranksIn _ 4)) (by omega)))
    · split
      · exact Or.inl rfl
      · refine Or.inr (ranksBelow_append (ranksBelow_append
          (ranksBelow_mono (ranksIn_below (setupMsgT_ranks name args.port 3))
            (by omega))
          (ranksBelow_mono (ranksIn_below
            (tcpipEvT_ranks (optTruthy args.ip) (serial?.getD "") args.port))
            (by omega)))
          (ranksIn_below (connectT_ranks env target)))

theorem mainRun_code (env : Env) (args : Args) (stdin : List (Option String))
    (rules : List (Nat × Nat)) :
    (mainRun env args stdin rules).2 = 0 ∨
    ranksBelow (mainRun env args stdin rules).1 4 := by
  obtain ⟨_, hdb⟩ := discoverT_trace env args stdin
  rw [mainRun]
  rcases hd : discoverT env args stdin with t |
    ⟨t, target, ip?, serial?, name, already, stdin1⟩
  · dsimp only
    rw [hd] at hdb
    exact Or.inr (ranksBelow_mono hdb (by omega))
  · dsimp only
    rw [hd] at hdb
    dsimp only [Disc.trace] at hdb
    rcases postT_code env args rules target serial? name already with h | h
    · exact Or.inl h
    · exact Or.inr (ranksBelow_append (ranksBelow_mono hdb (by omega)) h)

theorem mainModel_code (env : Env) (args : Args)
    (stdin : List (Option String)) :
    (mainModel env args stdin).2 = 0 ∨
    ranksBelow (mainModel env args stdin).1 4 := by
  rw [mainModel]
  split
  · exact Or.inr (ranksBelow_mono (ranksIn_below (err_ranksIn _ 4)) (by omega))
  · rcases hpr : parseReverseOpt args.reverse with msg | rules
    · try dsimp only
      exact Or.inr (ranksBelow_mono (ranksIn_below (err_ranksIn _ 4))
        (by omega))
    · try dsimp only
      split
      · exact Or.inr (ranksBelow_mono (ranksIn_below (err_ranksIn _ 4))
          (by omega))
      · rcases hips : args.ip with _ | ipArg
        · try dsimp only
          exact mainRun_code env args stdin rules
        · try dsimp only
          split
          · exact Or.inr (ranksBelow_mono (ranksIn_below (err_ranksIn _ 4))
              (by omega))
          · exact mainRun_code env args stdin rules

/-! ## Run characterisation lemmas -/

theorem mainModel_ok (env : Env) (args : Args) (stdin : List (Option String))
    (rules : List (Nat × Nat))
    (hport : 1 ≤ args.port ∧ args.port ≤ 65535)
    (hrev : parseReverseOpt args.reverse = .ok rules)
    (hadb : env.adbPresent = true)
    (hip : ∀ s, args.ip = some s → s ≠ "" → isIPv4 s = true) :
    mainModel env args stdin = mainRun env args stdin rules := by
  rw [mainModel, if_neg (by simpa using hport), hrev]
  dsimp only
  rw [if_neg (by simp [hadb])]
  rcases hips : args.ip with _ | ipArg
  · rfl
  · dsimp only
    rw [if_neg ?_]
    by_cases he : ipArg = ""
    · simp [he]
    · simp [he, hip ipArg hips he]

theorem mainModel_run (env : Env) (args : Args)
    (stdin : List (Option String)) :
    (∃ msg, mainModel env args stdin = ([Ev.err msg], 1)) ∨
    ∃ rules, parseReverseOpt args.reverse = .ok rules ∧
      mainModel env args stdin = mainRun env args stdin rules := by
  by_cases hport : 1 ≤ args.port ∧ args.port ≤ 65535
  · rcases hpr : parseReverseOpt args.reverse with msg | rules
    · refine Or.inl ⟨msg, ?_⟩
      rw [mainModel, if_neg (by simpa using hport), hpr]
    · by_cases hadb : env.adbPresent
      · rcases hips : args.ip with _ | ipArg
        · refine Or.inr ⟨rules, rfl, ?_⟩
          rw [mainModel, if_neg (by simpa using hport), hpr]
          dsimp only
          rw [if_neg (by simp [hadb]), hips]
        · by_cases hbad : ipArg ≠ "" ∧ ¬ isIPv4 ipArg
          · refine Or.inl
              ⟨s!"Error: Invalid IP address \x27{ipArg}\x27.", ?_⟩
            rw [mainModel, if_neg (by simpa using hport), hpr]
            dsimp only
            rw [if_neg (by simp [hadb]), hips]
            dsimp only
            rw [if_pos hbad]
          · refine Or.inr ⟨rules, rfl, ?_⟩
            rw [mainModel, if_neg (by simpa using hport), hpr]
            dsimp only
            rw [if_neg (by simp [hadb]), hips]
            dsimp only
            rw [if_neg hbad]
      · refine Or.inl
          ⟨"Error: adb not found. Install Android SDK platform-tools.", ?_⟩
        rw [mainModel, if_neg (by simpa using hport), hpr]
        dsimp only
        rw [if_pos (by simp [hadb])]
  · refine Or.inl
      ⟨s!"Error: Port must be between 1 and 65535, got {args.port}.", ?_⟩
    rw [mainModel, if_pos (by simpa using hport)]

theorem connectRunOf_attempts (env : Env) : 1 ≤ (connectRunOf env).attempts := by
  rw [connectRunOf]
  rcases h : connectLoop env.connectAttempts env.connectDur 5000 12 0 0
    with _ | r
  · have hs := connectLoop_some env.connectAttempts env.connectDur 5000 11 0 0
      (by omega)
    rw [h] at hs
    exact absurd hs (by simp)
  · simpa using connectLoop_attempts env.connectAttempts env.connectDur
      5000 12 0 0 r h

theorem connectT_mem (env : Env) (target : String) :
    Ev.connectCmd target ∈ (connectT env target).1 := by
  rw [connectT]
  refine List.mem_cons_of_mem _ (List.mem_append_left _ ?_)
  exact List.mem_replicate.mpr
    ⟨by have := connectRunOf_attempts env; omega, rfl⟩

theorem connectT_bridge (env : Env) (target : String) :
    ∀ e ∈ (connectT env target).1, isBridgeEv e = true →
      e = .connectCmd target := by
  intro e he hb
  rw [connectT] at he
  rcases List.mem_cons.mp he with rfl | he
  · exact absurd hb (by simp [isBridgeEv])
  · rcases List.mem_append.mp he with he | he
    · exact List.eq_of_mem_replicate he
    · split at he
      · exact absurd he (by simp)
      · obtain rfl := List.mem_singleton.mp he
        exact absurd hb (by simp [isBridgeEv])

theorem applyReverseT_bridge (env : Env) (target : String)
    (rules : List (Nat × Nat)) :
    ∀ e ∈ applyReverseT env target rules, isBridgeEv e = true →
      ∃ dp hp, e = .reverseCmd target dp hp := by
  intro e he hb
  rcases rules with _ | ⟨r0, rest⟩
  · exact absurd he (by simp [applyReverseT])
  · rw [applyReverseT] at he
    rcases List.mem_cons.mp he with rfl | he
    · exact absurd hb (by simp [isBridgeEv])
    · obtain ⟨block, hbk, heb⟩ := List.mem_flatten.mp he
      obtain ⟨rule, _, rfl⟩ := List.mem_map.mp hbk
      rcases List.mem_cons.mp heb with rfl | heb
      · exact ⟨rule.1, rule.2, rfl⟩
      · split at heb
        · obtain rfl := List.mem_singleton.mp heb
          exact absurd hb (by simp [isBridgeEv])
        · exact absurd heb (by simp)
    · simp

theorem applyReverseT_filterMap (env : Env) (target : String)
    (rules : List (Nat × Nat)) :
    (applyReverseT env target rules).filterMap revRuleOf = rules := by
  have hblocks : ∀ rs : List (Nat × Nat),
      ((rs.map (fun r =>
        Ev.reverseCmd target r.1 r.2 ::
        (if (env.reverseResult target r.1 r.2).returncode ≠ 0 then
           [Ev.err s!"Warning: Failed to reverse port {r.1}."]
         else []))).flatten).filterMap revRuleOf = rs := by
    intro rs
    induction rs with
    | nil => simp
    | cons r rest ih =>
      have h2 : List.filterMap revRuleOf
          (if (env.reverseResult target r.1 r.2).returncode ≠ 0 then
            [Ev.err s!"Warning: Failed to reverse port {r.1}."] else []) =
            [] := by
        split <;> rfl
      rw [List.map_cons, List.flatten_cons, List.filterMap_append,
        List.filterMap_cons_some
          (show revRuleOf (Ev.reverseCmd target r.1 r.2) =
            some (r.1, r.2) from rfl),
        h2, ih]
      simp
  rcases rules with _ | ⟨r0, rest⟩
  · simp [applyReverseT]
  · rw [applyReverseT]
    · simpa [List.filterMap_cons, revRuleOf] using hblocks (r0 :: rest)
    · simp

theorem applyReverseT_warn (env : Env) (target : String)
    (rules : List (Nat × Nat)) :
    ∀ r ∈ rules, (env.reverseResult target r.1 r.2).returncode ≠ 0 →
      Ev.err s!"Warning: Failed to reverse port {r.1}." ∈
        applyReverseT env target rules := by
  intro r hr hf
  rcases rules with _ | ⟨r0, rest⟩
  · exact absurd hr (by simp)
  · rw [applyReverseT]
    · refine List.mem_cons_of_mem _ (List.mem_flatten.mpr
        ⟨Ev.reverseCmd target r.1 r.2 ::
          [Ev.err s!"Warning: Failed to reverse port {r.1}."], ?_, by simp⟩)
      refine List.mem_map.mpr ⟨r, hr, ?_⟩
      dsimp only
      rw [if_pos hf]
    · simp

theorem applyReverseT_errs (env : Env) (target : String)
    (rules : List (Nat × Nat)) :
    ∀ s, Ev.err s ∈ applyReverseT env target rules →
      ∃ r ∈ rules, (env.reverseResult target r.1 r.2).returncode ≠ 0 ∧
        s = s!"Warning: Failed to reverse port {r.1}." := by
  intro s hs
  rcases rules with _ | ⟨r0, rest⟩
  · exact absurd hs (by simp [applyReverseT])
  · rw [applyReverseT] at hs
    rcases List.mem_cons.mp hs with he | hs
    · exact absurd he (by simp)
    · obtain ⟨block, hbk, heb⟩ := List.mem_flatten.mp hs
      obtain ⟨rule, hrule, rfl⟩ := List.mem_map.mp hbk
      rcases List.mem_cons.mp heb with he | heb
      · exact absurd he (by simp)
      · split at heb
        · rename_i hf
          obtain h := List.mem_singleton.mp heb
          exact ⟨rule, hrule, hf, by simpa using h⟩
        · exact absurd heb (by simp)
    · simp

/-- C8: reverse-forward rules are applied in input order — the sequence of
reverse bridge calls equals the validated rule list regardless of per-rule
outcomes; a rule whose installation exits nonzero produces a warning on the
diagnostic stream while the batch continues; every diagnostic line of the
forwarding phase is such a warning; and a run that issued any reverse call
exits with code 0. -/
theorem C8_reverse_forward_batch :
    (∀ (env : Env) (target : String) (rules : List (Nat × Nat)),
        (applyReverseT env target rules).filterMap revRuleOf = rules) ∧
    (∀ (env : Env) (target : String) (rules : List (Nat × Nat)),
        ∀ r ∈ rules, (env.reverseResult target r.1 r.2).returncode ≠ 0 →
          Ev.err s!"Warning: Failed to reverse port {r.1}." ∈
            applyReverseT env target rules) ∧
    (∀ (env : Env) (target : String) (rules : List (Nat × Nat)) (s : String),
        Ev.err s ∈ applyReverseT env target rules →
          ∃ r ∈ rules, (env.reverseResult target r.1 r.2).returncode ≠ 0 ∧
            s = s!"Warning: Failed to reverse port {r.1}.") ∧
    (∀ (env : Env) (args : Args) (stdin : List (Option String))
        (tgt : String) (dp hp : Nat),
        Ev.reverseCmd tgt dp hp ∈ (mainModel env args stdin).1 →
        (mainModel env args stdin).2 = 0) := by
  refine ⟨applyReverseT_filterMap, applyReverseT_warn, applyReverseT_errs,
    fun env args stdin tgt dp hp hmem => ?_⟩
  rcases mainModel_code env args stdin with h | h
  · exact h
  · have := h _ hmem 5 rfl
    omega

/-- Witness for C8: on `sampleEnv` (whose reverse bridge always fails with
exit 1) a run with two rules issues both installs in order, warns for each,
and still exits 0. -/
theorem C8_reverse_forward_batch_witness :
    (applyReverseT sampleEnv "192.168.1.50:5555" [(3000, 3000), (8080, 9090)]).filterMap
        revRuleOf = [(3000, 3000), (8080, 9090)] ∧
    Ev.err "Warning: Failed to reverse port 3000." ∈
      applyReverseT sampleEnv "192.168.1.50:5555" [(3000, 3000), (8080, 9090)] ∧
    (mainModel sampleEnv ⟨5555, some "3000,8080:9090", none⟩ []).2 = 0 := by
  refine ⟨C8_reverse_forward_batch.1 sampleEnv "192.168.1.50:5555"
      [(3000, 3000), (8080, 9090)], ?_, ?_⟩
  · exact C8_reverse_forward_batch.2.1 sampleEnv "192.168.1.50:5555"
      [(3000, 3000), (8080, 9090)] (3000, 3000) (by decide) (by decide)
  · exact C8_reverse_forward_batch.2.2.2 sampleEnv
      ⟨5555, some "3000,8080:9090", none⟩ [] "192.168.1.50:5555" 3000 3000
      (by decide)

/-! ## The explicit-IP path -/

theorem setupMsgT_noBridge (name : String) (port : Int) :
    ∀ e ∈ setupMsgT name port, isBridgeEv e = false := by
  intro e he
  unfold setupMsgT at he
  split at he <;> simp_all [isBridgeEv]

theorem connMsgT_noBridge (name target : String) :
    ∀ e ∈ connMsgT name target, isBridgeEv e = false := by
  intro e he
  unfold connMsgT at he
  split at he <;> simp_all [isBridgeEv]

theorem finalMsgT_noBridge (g : Bool) :
    ∀ e ∈ finalMsgT g, isBridgeEv e = false := by
  intro e he
  unfold finalMsgT at he
  split at he <;> simp_all [isBridgeEv]

theorem tcpipEvT_true (serial : String) (port : Int) :
    tcpipEvT true serial port = [] := rfl

theorem postT_ip_bridge (env : Env) (args : Args) (rules : List (Nat × Nat))
    (target : String) (serial? : Option String) (name : String)
    (hip : optTruthy args.ip = true) :
    ∀ e ∈ (postT env args rules target serial? name false).1,
      isBridgeEv e = true →
      (e = .connectCmd target ∨ ∃ dp hp, e = .reverseCmd target dp hp) := by
  intro e he hb
  rw [postT, if_neg (by simp)] at he
  try dsimp only at he
  rw [if_neg (by simp [hip])] at he
  try dsimp only at he
  rw [hip, tcpipEvT_true] at he
  split at he
  · rcases List.mem_append.mp he with he | he
    · rcases List.mem_append.mp he with he | he
      · rcases List.mem_append.mp he with he | he
        · rcases List.mem_append.mp he with he | he
          · rcases List.mem_append.mp he with he | he
            · rw [setupMsgT_noBridge name args.port e he] at hb
              exact absurd hb (by simp)
            · exact absurd he (by simp)
          · exact Or.inl (connectT_bridge env target e he hb)
        · rw [connMsgT_noBridge name target e he] at hb
          exact absurd hb (by simp)
      · exact Or.inr (applyReverseT_bridge env target rules e he hb)
    · rw [finalMsgT_noBridge true e he] at hb
      exact absurd hb (by simp)
  · rcases List.mem_append.mp he with he | he
    · rcases List.mem_append.mp he with he | he
      · rw [setupMsgT_noBridge name args.port e he] at hb
        exact absurd hb (by simp)
      · exact absurd he (by simp)
    · exact Or.inl (connectT_bridge env target e he hb)

theorem postT_ip_connect_mem (env : Env) (args : Args)
    (rules : List (Nat × Nat)) (target : String) (serial? : Option String)
    (name : String) (hip : optTruthy args.ip = true) :
    Ev.connectCmd target ∈ (postT env args rules target serial? name false).1 := by
  rw [postT, if_neg (by simp)]
  try dsimp only
  rw [if_neg (by simp [hip])]
  try dsimp only
  split <;> simp [List.mem_append, connectT_mem env target]

theorem mainRun_ip (env : Env) (args : Args) (stdin : List (Option String))
    (rules : List (Nat × Nat)) (ipArg : String)
    (hips : args.ip = some ipArg) (hne : ipArg ≠ "") :
    mainRun env args stdin rules =
      ((postT env args rules (ipArg ++ ":" ++ toString args.port) none ""
        false).1,
       (postT env args rules (ipArg ++ ":" ++ toString args.port) none ""
        false).2) := by
  rw [mainRun, discoverT, hips]
  dsimp only
  rw [if_neg hne]
  dsimp only
  rw [List.nil_append]

/-- C6: when an explicit IP is supplied, discovery is skipped entirely and no
transport-mode switch is ever issued — every bridge call of the run is a
connect (or subsequent reverse-forward) against `ip:port` — and once the
flag validation passes, the run proceeds directly to the connect handshake:
a connect command against `ip:port` is issued. -/
theorem C6_explicit_ip_direct_connect :
    (∀ (env : Env) (args : Args) (stdin : List (Option String))
        (ipArg : String),
        args.ip = some ipArg → ipArg ≠ "" →
        ∀ e ∈ (mainModel env args stdin).1, isBridgeEv e = true →
          (e = .connectCmd (ipArg ++ ":" ++ toString args.port) ∨
           ∃ dp hp,
             e = .reverseCmd (ipArg ++ ":" ++ toString args.port) dp hp)) ∧
    (∀ (env : Env) (args : Args) (stdin : List (Option String))
        (ipArg : String) (rules : List (Nat × Nat)),
        args.ip = some ipArg → ipArg ≠ "" →
        1 ≤ args.port → args.port ≤ 65535 →
        parseReverseOpt args.reverse = .ok rules →
        env.adbPresent = true → isIPv4 ipArg = true →
        Ev.connectCmd (ipArg ++ ":" ++ toString args.port) ∈
          (mainModel env args stdin).1) := by
  constructor
  · intro env args stdin ipArg hips hne e he hb
    rcases mainModel_run env args stdin with ⟨msg, hm⟩ | ⟨rules, hpr, hm⟩
    · rw [hm] at he
      obtain rfl := List.mem_singleton.mp he
      exact absurd hb (by simp [isBridgeEv])
    · rw [hm, mainRun_ip env args stdin rules ipArg hips hne] at he
      exact postT_ip_bridge env args rules (ipArg ++ ":" ++ toString args.port)
        none "" (by simp [optTruthy, hips, hne]) e he hb
  · intro env args stdin ipArg rules hips hne hp1 hp2 hpr hadb hvalid
    rw [mainModel_ok env args stdin rules ⟨hp1, hp2⟩ hpr hadb
      (fun s hs _ => by rw [hips] at hs; obtain rfl := Option.some_inj.mp hs; exact hvalid),
      mainRun_ip env args stdin rules ipArg hips hne]
    exact postT_ip_connect_mem env args rules
      (ipArg ++ ":" ++ toString args.port) none "" (by simp [optTruthy, hips, hne])

/-- Witness for C6: on `sampleEnv` with `--ip 10.0.0.5`, the whole trace is
the connect banner, one connect bridge call, and the success banner — no
device listing, no mode switch — and the connect command is present. -/
theorem C6_explicit_ip_direct_connect_witness :
    (mainModel sampleEnv ⟨5555, none, some "10.0.0.5"⟩ []).1 =
      [Ev.out "Connecting to 10.0.0.5:5555...",
       Ev.connectCmd "10.0.0.5:5555",
       Ev.out "Connected to 10.0.0.5:5555"] ∧
    (Ev.connectCmd "10.0.0.5:5555" ∈
      (mainModel sampleEnv ⟨5555, none, some "10.0.0.5"⟩ []).1) ∧
    (∀ e ∈ (mainModel sampleEnv ⟨5555, none, some "10.0.0.5"⟩ []).1,
      isBridgeEv e = true →
        (e = Ev.connectCmd "10.0.0.5:5555" ∨
         ∃ dp hp, e = Ev.reverseCmd "10.0.0.5:5555" dp hp)) := by
  refine ⟨by decide, ?_, ?_⟩
  · exact C6_explicit_ip_direct_connect.2 sampleEnv ⟨5555, none, some "10.0.0.5"⟩
      [] "10.0.0.5" [] rfl (by decide) (by decide) (by decide) (by rfl) rfl
      (by decide)
  · exact C6_explicit_ip_direct_connect.1 sampleEnv ⟨5555, none, some "10.0.0.5"⟩
      [] "10.0.0.5" rfl (by decide)

/-! ## The already-connected shortcut -/

theorem alreadyMsgT_empty_iff (rules : List (Nat × Nat)) (name target : String) :
    alreadyMsgT rules name target = [] ↔ rules ≠ [] := by
  unfold alreadyMsgT
  split
  · split <;> simp_all
  · simp_all

theorem postT_already (env : Env) (args : Args) (rules : List (Nat × Nat))
    (target : String) (serial? : Option String) (name : String) :
    postT env args rules target serial? name true =
      (alreadyMsgT rules name target ++ applyReverseT env target rules, 0) := by
  rw [postT, if_pos rfl]

theorem discoverT_usb (env : Env) (args : Args)
    (stdin stdin1 : List (Option String)) (usb wireless : List String)
    (serial name ip : String)
    (hipn : optTruthy args.ip = false)
    (hdev : (parseDevicesT env).2 = some (usb, wireless))
    (husb : usb ≠ [])
    (hsel : (selectDeviceT env usb stdin).2 = some (serial, name, stdin1))
    (hipr : (getDeviceIpT env serial).2 = some ip) :
    discoverT env args stdin =
      .go ((parseDevicesT env).1 ++ (selectDeviceT env usb stdin).1 ++
          (getDeviceIpT env serial).1)
        (ip ++ ":" ++ toString args.port) (some ip) (some serial) name
        (decide ((ip ++ ":" ++ toString args.port) ∈ wireless)) stdin1 := by
  obtain ⟨u, us, rfl⟩ : ∃ u us, usb = u :: us := by
    rcases usb with _ | ⟨u, us⟩
    · exact absurd rfl husb
    · exact ⟨u, us, rfl⟩
  have hbody : discoverDevicesT env args stdin =
      .go ((parseDevicesT env).1 ++ (selectDeviceT env (u :: us) stdin).1 ++
          (getDeviceIpT env serial).1)
        (ip ++ ":" ++ toString args.port) (some ip) (some serial) name
        (decide ((ip ++ ":" ++ toString args.port) ∈ wireless)) stdin1 := by
    rw [discoverDevicesT, hdev]
    dsimp only
    rw [hsel]
    dsimp only
    rw [hipr]
  rw [discoverT]
  rcases hips : args.ip with _ | ipArg
  · exact hbody
  · dsimp only
    have he : ipArg = "" := by
      rw [hips] at hipn
      simpa [optTruthy] using hipn
    rw [if_pos he]
    exact hbody

theorem ne_tcpip_connect_of_rank {e : Ev}
    (h : ∀ r, evRank? e = some r → r ≠ 3 ∧ r ≠ 4) :
    ((∀ s p, e ≠ .tcpipCmd s p) ∧ ∀ tgt, e ≠ .connectCmd tgt) := by
  constructor
  · intro s p he
    subst he
    exact (h 3 rfl).1 rfl
  · intro tgt he
    subst he
    exact (h 4 rfl).2 rfl

/-- C1 counterexample: a run on a USB device whose resolved target
`192.168.1.50:5555` is already among the discovered network devices, invoked
with a reverse rule (`-r 3000`): it issues no mode switch and no connect and
proceeds straight to forwarding — but, contrary to the claim, it never
reports "already connected" (the code prints that status only on a bare run
with no reverse rules). -/
theorem C1_already_connected_counterexample :
    (parseDeviceLines (pySplitLines sampleEnv.devices.stdout)).2 =
      ["192.168.1.50:5555"] ∧
    (getDeviceIpT sampleEnv "SERIAL1").2 = some "192.168.1.50" ∧
    (mainModel sampleEnv ⟨5555, some "3000", none⟩ []).1 =
      [Ev.devicesCmd, Ev.getprop "SERIAL1" "ro.product.model",
       Ev.getprop "SERIAL1" "ro.product.brand", Ev.ipAddr "SERIAL1" "wlan0",
       Ev.out "Setting up reverse forwarding on ports 3000",
       Ev.reverseCmd "192.168.1.50:5555" 3000 3000,
       Ev.err "Warning: Failed to reverse port 3000."] ∧
    (∀ e ∈ (mainModel sampleEnv ⟨5555, some "3000", none⟩ []).1,
      isAlreadyConnectedMsg e = false) := by
  refine ⟨by decide, by decide, by decide, by decide⟩

/-- C1 amended: whenever the USB path resolves a target that is already
present among the discovered network devices, the run issues no mode-switch
and no connect command, exits 0, and proceeds straight to the reverse-forward
rules (applied in input order); the "already connected" status line is
printed exactly when no reverse rules were requested — with rules present
the run proceeds to forwarding silently. -/
theorem C1_already_connected_run (env : Env) (args : Args)
    (stdin stdin1 : List (Option String)) (rules : List (Nat × Nat))
    (usb wireless : List String) (serial name ip : String)
    (hport : 1 ≤ args.port ∧ args.port ≤ 65535)
    (hrev : parseReverseOpt args.reverse = .ok rules)
    (hadb : env.adbPresent = true)
    (hipn : optTruthy args.ip = false)
    (hdev : (parseDevicesT env).2 = some (usb, wireless))
    (husb : usb ≠ [])
    (hsel : (selectDeviceT env usb stdin).2 = some (serial, name, stdin1))
    (hipr : (getDeviceIpT env serial).2 = some ip)
    (hmem : (ip ++ ":" ++ toString args.port) ∈ wireless) :
    (mainModel env args stdin).1 =
      (parseDevicesT env).1 ++ (selectDeviceT env usb stdin).1 ++
        (getDeviceIpT env serial).1 ++
        (alreadyMsgT rules name (ip ++ ":" ++ toString args.port) ++
         applyReverseT env (ip ++ ":" ++ toString args.port) rules) ∧
    (mainModel env args stdin).2 = 0 ∧
    (∀ e ∈ (mainModel env args stdin).1,
        (∀ s p, e ≠ .tcpipCmd s p) ∧ ∀ tgt, e ≠ .connectCmd tgt) ∧
    (alreadyMsgT rules name (ip ++ ":" ++ toString args.port) = [] ↔
      rules ≠ []) ∧
    (applyReverseT env (ip ++ ":" ++ toString args.port) rules).filterMap
      revRuleOf = rules := by
  have hok : mainModel env args stdin = mainRun env args stdin rules := by
    refine mainModel_ok env args stdin rules hport hrev hadb ?_
    intro s hs hne
    rw [hs] at hipn
    exact absurd (by simpa [optTruthy] using hipn) hne
  have htrace : mainRun env args stdin rules =
      ((parseDevicesT env).1 ++ (selectDeviceT env usb stdin).1 ++
        (getDeviceIpT env serial).1 ++
        (alreadyMsgT rules name (ip ++ ":" ++ toString args.port) ++
         applyReverseT env (ip ++ ":" ++ toString args.port) rules), 0) := by
    rw [mainRun, discoverT_usb env args stdin stdin1 usb wireless serial
      name ip hipn hdev husb hsel hipr]
    dsimp only
    rw [decide_eq_true hmem, postT_already]
  rw [hok, htrace]
  refine ⟨rfl, rfl, ?_, alreadyMsgT_empty_iff rules name _,
    applyReverseT_filterMap env _ rules⟩
  intro e he
  have hd := discoverT_trace env args stdin
  rw [discoverT_usb env args stdin stdin1 usb wireless serial name ip hipn
    hdev husb hsel hipr] at hd
  dsimp only [Disc.trace] at hd
  rcases List.mem_append.mp he with he | he
  · refine ne_tcpip_connect_of_rank (fun r hr => ?_)
    have := hd.2 e he r hr
    omega
  · refine ne_tcpip_connect_of_rank (fun r hr => ?_)
    rcases List.mem_append.mp he with he | he
    · rcases alreadyMsgT_ranks rules name
        (ip ++ ":" ++ toString args.port) 2 e he with hn | hs2
      · rw [hn] at hr
        exact absurd hr (by simp)
      · rw [hs2] at hr
        obtain rfl : (2 : Nat) = r := by simpa using hr
        omega
    · rcases applyReverseT_ranks env (ip ++ ":" ++ toString args.port)
        rules e he with hn | hs2
      · rw [hn] at hr
        exact absurd hr (by simp)
      · rw [hs2] at hr
        obtain rfl : (5 : Nat) = r := by simpa using hr
        omega

/-- Witness for C1 (amended): the bare run (no reverse rules) on `sampleEnv`
prints the already-connected status and issues neither mode switch nor
connect. -/
theorem C1_already_connected_run_witness :
    (mainModel sampleEnv ⟨5555, none, none⟩ []).2 = 0 ∧
    (alreadyMsgT [] "Google Pixel 7" "192.168.1.50:5555" = [] ↔
      ([] : List (Nat × Nat)) ≠ []) ∧
    (∀ e ∈ (mainModel sampleEnv ⟨5555, none, none⟩ []).1,
        (∀ s p, e ≠ Ev.tcpipCmd s p) ∧ ∀ tgt, e ≠ Ev.connectCmd tgt) := by
  have h := C1_already_connected_run sampleEnv ⟨5555, none, none⟩ [] []
    [] ["SERIAL1"] ["192.168.1.50:5555"] "SERIAL1" "Google Pixel 7"
    "192.168.1.50" (by decide) (by rfl) rfl rfl (by decide) (by decide)
    (by decide) (by decide) (by decide)
  exact ⟨h.2.1, h.2.2.2.1, h.2.2.1⟩

end Adbw
